import Mathlib

/-!
Shallow embedding of the `mcp_for_android` server core, and proofs of the
specification's testable properties against it.

The embedding covers, from `src/ai_mcp_server/mcp/mcp_interface.py`:
the device connection (`DeviceConnection.send_request`, its timeout
watchdog), the server's message handling (`MCPServer._handle_client_message`
response branch, `_handle_handshake`, `_handle_client` registration and its
disconnect cleanup) and action-sequence serialization
(`MCPServer._execute_actions`); and from
`src/ai_mcp_server/app_learn/app_deep_explorer.py`: screen-signature
generation, element enumeration with in-place tree mutation, selector
synthesis, clickable-element selection, and the breadth-first exploration
driver with its screen cap and depth cap.

Python dicts are modelled as insertion-ordered association lists
(`List (String × α)`); Python string truthiness is modelled as
non-emptiness; continuation ("callback") invocation is modelled by emitting
the `Response` value the callback would be invoked with, so invocation
counts are observable.  Calls that in Python run on their own thread
(the timeout watchdog, response dispatch) are modelled as explicit events
interleaved into a run; a single event is the atomic `dict.pop`, which is
atomic in the source as well.
-/

/-- Look up a key in an association-list dict (`d.get(k)` / `k in d`). -/
def lookupKV {α : Type} (l : List (String × α)) (k : String) : Option α :=
  (l.find? (fun p => p.1 == k)).map (fun p => p.2)

/-- `d.get(k, default)`. -/
def getKV {α : Type} (l : List (String × α)) (k : String) (d : α) : α :=
  (lookupKV l k).getD d

/-- `k in d`. -/
def hasKey {α : Type} (l : List (String × α)) (k : String) : Bool :=
  (lookupKV l k).isSome

/-- `d[k] = v`: replace in place if the key exists, else append
(Python dicts preserve insertion order). -/
def setKV {α : Type} : List (String × α) → String → α → List (String × α)
  | [], k, v => [(k, v)]
  | p :: rest, k, v => if p.1 == k then (k, v) :: rest else p :: setKV rest k v

/-- `d.pop(k, None)`'s effect on the dict: drop the key. -/
def removeKV {α : Type} (l : List (String × α)) (k : String) : List (String × α) :=
  l.filter (fun p => p.1 != k)

theorem lookupKV_setKV_self {α : Type} (l : List (String × α)) (k : String) (v : α) :
    lookupKV (setKV l k v) k = some v := by
  induction l with
  | nil => simp [setKV, lookupKV, List.find?]
  | cons p rest ih =>
    cases hbeq : (p.1 == k) with
    | true => simp [setKV, hbeq, lookupKV, List.find?]
    | false => simpa [setKV, hbeq, lookupKV, List.find?] using ih

theorem lookupKV_setKV_ne {α : Type} (l : List (String × α)) (k k' : String) (v : α)
    (h : k' ≠ k) : lookupKV (setKV l k v) k' = lookupKV l k' := by
  have hkk : (k == k') = false := beq_eq_false_iff_ne.mpr (Ne.symm h)
  induction l with
  | nil => simp [setKV, lookupKV, List.find?, hkk]
  | cons p rest ih =>
    cases hbeq : (p.1 == k) with
    | true =>
      have hp : p.1 = k := eq_of_beq hbeq
      have hp' : (p.1 == k') = false := by
        rw [hp]; exact hkk
      simp [setKV, hbeq, lookupKV, List.find?, hkk, hp']
    | false =>
      cases hbeq2 : (p.1 == k') with
      | true => simp [setKV, hbeq, lookupKV, List.find?, hbeq2]
      | false => simpa [setKV, hbeq, lookupKV, List.find?, hbeq2] using ih

theorem lookupKV_removeKV_self {α : Type} (l : List (String × α)) (k : String) :
    lookupKV (removeKV l k) k = none := by
  induction l with
  | nil => simp [removeKV, lookupKV]
  | cons p rest ih =>
    cases hbeq : (p.1 == k) with
    | true =>
      have hstep : removeKV (p :: rest) k = removeKV rest k := by
        simp [removeKV, List.filter, bne, hbeq]
      rw [hstep]; exact ih
    | false =>
      have hstep : removeKV (p :: rest) k = p :: removeKV rest k := by
        simp [removeKV, List.filter, bne, hbeq]
      rw [hstep]
      simpa [lookupKV, List.find?, hbeq] using ih

theorem lookupKV_removeKV_ne {α : Type} (l : List (String × α)) (k k' : String)
    (h : k' ≠ k) : lookupKV (removeKV l k) k' = lookupKV l k' := by
  induction l with
  | nil => simp [removeKV, lookupKV]
  | cons p rest ih =>
    cases hbeq : (p.1 == k) with
    | true =>
      have hp : p.1 = k := eq_of_beq hbeq
      have hp' : (p.1 == k') = false := by
        rw [hp]; exact beq_eq_false_iff_ne.mpr (Ne.symm h)
      simpa [removeKV, List.filter, bne, hbeq, lookupKV, List.find?, hp'] using ih
    | false =>
      cases hbeq2 : (p.1 == k') with
      | true =>
        simp [removeKV, List.filter, bne, hbeq, lookupKV, List.find?, hbeq2]
      | false =>
        simpa [removeKV, List.filter, bne, hbeq, lookupKV, List.find?, hbeq2] using ih

/-! ## Wire protocol and request/response correlation
Embedding of `mcp_protocol.Request` / `mcp_protocol.Response` and of
`mcp_interface.DeviceConnection` and the correlation parts of
`mcp_interface.MCPServer`.  Parameter and payload values are modelled as
strings (the claims under verification only involve string-valued
payload entries). -/

/-- `mcp_protocol.Request`: `request_id`, `action_type`, `parameters`
(a dict), and the session id carried by its optional `context`. -/
structure Request where
  request_id : String
  action_type : String
  parameters : List (String × String) := []
  session_id : Option String := none
deriving DecidableEq, Repr

/-- `mcp_protocol.Response`.  A continuation ("callback") invocation is
modelled by emitting the `Response` value it is invoked with.
`status` is an `Option` because the server's response branch fills it from
`response_data.get("status")`.  The `device_state` payload reconstruction
for `get_ui_state` responses (a nested JSON parse) only shapes the payload
handed to the continuation, never the correlation itself, and is elided. -/
structure Response where
  request_id : String
  status : Option String := none
  data : List (String × String) := []
  error : Option String := none
deriving DecidableEq, Repr

/-- The wire frame built by `DeviceConnection.send_request`:
`{type, requestId, actionType, parameters, timestamp[, sessionId]}`. -/
structure RequestMessage where
  type : String
  requestId : String
  actionType : String
  parameters : List (String × String)
  timestamp : Nat
  sessionId : Option String
deriving DecidableEq, Repr

/-- An entry of `DeviceConnection.pending_requests`:
`{"request": request, "callback": callback}`.  Only requests sent with a
callback are stored, so the entry records just the original request. -/
structure PendingEntry where
  request : Request
deriving DecidableEq, Repr

/-- `mcp_interface.DeviceConnection`: `last_seen` and `capabilities` are
elided (no claim mentions them); `hasSocket` models `socket is not None`. -/
structure DeviceConnection where
  device_id : String
  connected : Bool := true
  hasSocket : Bool := false
  pending_requests : List (String × PendingEntry) := []
deriving DecidableEq, Repr

/-- `DeviceConnection.send_request` up to arming the timeout watchdog:
returns the updated connection, the continuation invocations performed
synchronously (the "device not connected" fast-fail path), and the frame
written to the socket, if any.  The armed watchdog itself is modelled as a
`WireEvent.timeout` event of the run (it fires 60 time units later on its
own thread).  The socket-exception path is not modelled (the socket is a
pure message sink here). -/
def DeviceConnection.sendRequest (c : DeviceConnection) (req : Request)
    (hasCallback : Bool) (now : Nat) :
    DeviceConnection × List Response × Option RequestMessage :=
  if ¬(c.connected = true ∧ c.hasSocket = true) then
    (c,
     if hasCallback then
       [{ request_id := req.request_id, status := some "error",
          error := some "Device not connected" }]
     else [], none)
  else
    let msg : RequestMessage :=
      { type := "request", requestId := req.request_id,
        actionType := req.action_type, parameters := req.parameters,
        timestamp := now, sessionId := req.session_id }
    let c' :=
      if hasCallback then
        { c with pending_requests :=
            setKV c.pending_requests req.request_id { request := req } }
      else c
    (c', [], some msg)

/-- The body of `timeout_handler` after its 60-unit sleep: the
`in pending_requests` check followed by `pop(request_id, None)` collapses
to one lookup because the model's events are atomic at the `pop` (which is
exactly the source's suppression mechanism: a `pop` returning `None` means
the response won the race and the timeout invocation is skipped). -/
def DeviceConnection.timeoutFire (c : DeviceConnection) (rid : String) :
    DeviceConnection × List Response :=
  match lookupKV c.pending_requests rid with
  | none => (c, [])
  | some _ =>
      ({ c with pending_requests := removeKV c.pending_requests rid },
       [{ request_id := rid, status := some "error",
          error := some "Request timed out" }])

/-- The device registry of `mcp_interface.MCPServer` (sessions, sockets and
the learning subsystem are elided; no claim under verification reads them). -/
structure MCPServer where
  devices : List (String × DeviceConnection) := []
deriving DecidableEq, Repr

/-- The `response` branch of `MCPServer._handle_client_message`: look the
device up in the registry, pop the pending entry for `requestId` if present,
and invoke its continuation with the reconstructed `Response`.  `rid` is
`message.get("requestId")` (`None` is never a pending key). -/
def handleResponseMessage (st : MCPServer) (device_id : String)
    (rid : Option String) (data : List (String × String)) :
    MCPServer × List Response :=
  match lookupKV st.devices device_id with
  | none => (st, [])
  | some dev =>
    match rid with
    | none => (st, [])
    | some r =>
      match lookupKV dev.pending_requests r with
      | none => (st, [])
      | some _ =>
        let dev' :=
          { dev with pending_requests := removeKV dev.pending_requests r }
        ({ st with devices := setKV st.devices device_id dev' },
         [{ request_id := r, status := lookupKV data "status",
            data := data, error := lookupKV data "error" }])

/-- The two concurrent sources that can resolve a pending request: the
device's `response` frame (dispatched by the read loop) and the request's
own timeout watchdog thread. -/
inductive WireEvent where
  | timeout (rid : String)
  | response (rid : String) (data : List (String × String))
deriving DecidableEq, Repr

/-- Apply one event.  The watchdog closes over the `DeviceConnection`
object itself; with the event alphabet above the device stays registered
throughout a run, so acting through the registry is equivalent. -/
def stepEvent (st : MCPServer) (device_id : String) (ev : WireEvent) :
    MCPServer × List Response :=
  match ev with
  | .timeout rid =>
    match lookupKV st.devices device_id with
    | none => (st, [])
    | some dev =>
      let r := dev.timeoutFire rid
      ({ st with devices := setKV st.devices device_id r.1 }, r.2)
  | .response rid data => handleResponseMessage st device_id (some rid) data

/-- Run an arbitrary interleaving of response/timeout events, collecting
every continuation invocation in order. -/
def runEvents (st : MCPServer) (device_id : String) :
    List WireEvent → MCPServer × List Response
  | [] => (st, [])
  | ev :: evs =>
    let r := stepEvent st device_id ev
    let r' := runEvents r.1 device_id evs
    (r'.1, r.2 ++ r'.2)

/-- How many continuation invocations a list of emitted responses contains
for a given request id. -/
def invocationsFor (rid : String) (invs : List Response) : Nat :=
  (invs.filter (fun r => r.request_id == rid)).length

/-- The pending entry for `rid` of device `device_id`, if any. -/
def pendingAt (st : MCPServer) (device_id rid : String) : Option PendingEntry :=
  (lookupKV st.devices device_id).bind
    (fun dev => lookupKV dev.pending_requests rid)

/-- Does this event target the given request id? -/
def respondsTo (rid : String) : WireEvent → Bool
  | .timeout r => r == rid
  | .response r _ => r == rid

theorem pendingAt_set (st : MCPServer) (devId rid : String)
    (dev : DeviceConnection) :
    pendingAt { st with devices := setKV st.devices devId dev } devId rid =
      lookupKV dev.pending_requests rid := by
  simp [pendingAt, lookupKV_setKV_self]

theorem pendingAt_singleton (i r : String) (d : DeviceConnection) :
    pendingAt ⟨[(i, d)]⟩ i r = lookupKV d.pending_requests r := by
  simp [pendingAt, lookupKV, List.find?]

/-- An event that does not target `rid` leaves `rid`'s pending entry alone
and invokes no continuation for `rid`. -/
theorem stepEvent_other (st : MCPServer) (devId rid : String) (ev : WireEvent)
    (h : respondsTo rid ev = false) :
    pendingAt (stepEvent st devId ev).1 devId rid = pendingAt st devId rid ∧
    invocationsFor rid (stepEvent st devId ev).2 = 0 := by
  cases ev with
  | timeout r0 =>
    have hne : (r0 == rid) = false := h
    have hne' : rid ≠ r0 := fun hc => by simp [hc] at hne
    cases hdev : lookupKV st.devices devId with
    | none => simp [stepEvent, hdev, pendingAt, invocationsFor]
    | some dev =>
      cases hp0 : lookupKV dev.pending_requests r0 with
      | none =>
        simp [stepEvent, hdev, DeviceConnection.timeoutFire, hp0, pendingAt,
          invocationsFor, lookupKV_setKV_self]
      | some e0 =>
        constructor
        · simp [stepEvent, hdev, DeviceConnection.timeoutFire, hp0, pendingAt,
            lookupKV_setKV_self, lookupKV_removeKV_ne _ _ _ hne']
        · simp [stepEvent, hdev, DeviceConnection.timeoutFire, hp0,
            invocationsFor, hne]
  | response r0 dat =>
    have hne : (r0 == rid) = false := h
    have hne' : rid ≠ r0 := fun hc => by simp [hc] at hne
    cases hdev : lookupKV st.devices devId with
    | none => simp [stepEvent, handleResponseMessage, hdev, pendingAt, invocationsFor]
    | some dev =>
      cases hp0 : lookupKV dev.pending_requests r0 with
      | none =>
        simp [stepEvent, handleResponseMessage, hdev, hp0, pendingAt, invocationsFor]
      | some e0 =>
        constructor
        · simp [stepEvent, handleResponseMessage, hdev, hp0, pendingAt,
            lookupKV_setKV_self, lookupKV_removeKV_ne _ _ _ hne']
        · simp [stepEvent, handleResponseMessage, hdev, hp0, invocationsFor, hne]

/-- An event that targets `rid` while its entry is pending pops the entry
and invokes the continuation exactly once. -/
theorem stepEvent_hit (st : MCPServer) (devId rid : String) (ev : WireEvent)
    (e : PendingEntry) (h : respondsTo rid ev = true)
    (hp : pendingAt st devId rid = some e) :
    pendingAt (stepEvent st devId ev).1 devId rid = none ∧
    invocationsFor rid (stepEvent st devId ev).2 = 1 := by
  cases hdev : lookupKV st.devices devId with
  | none => simp [pendingAt, hdev] at hp
  | some dev =>
    have hprid : lookupKV dev.pending_requests rid = some e := by
      simpa [pendingAt, hdev] using hp
    cases ev with
    | timeout r0 =>
      have hr0 : r0 = rid := eq_of_beq h
      subst hr0
      simp [stepEvent, hdev, DeviceConnection.timeoutFire, hprid, pendingAt,
        lookupKV_setKV_self, lookupKV_removeKV_self, invocationsFor]
    | response r0 dat =>
      have hr0 : r0 = rid := eq_of_beq h
      subst hr0
      simp [stepEvent, handleResponseMessage, hdev, hprid, pendingAt,
        lookupKV_setKV_self, lookupKV_removeKV_self, invocationsFor]

/-- Once the entry for `rid` is gone, no event can invoke its continuation
again: the loser of the response/timeout race is suppressed. -/
theorem stepEvent_absent (st : MCPServer) (devId rid : String) (ev : WireEvent)
    (hp : pendingAt st devId rid = none) :
    pendingAt (stepEvent st devId ev).1 devId rid = none ∧
    invocationsFor rid (stepEvent st devId ev).2 = 0 := by
  cases hresp : respondsTo rid ev with
  | false =>
    have h := stepEvent_other st devId rid ev hresp
    exact ⟨h.1.trans hp, h.2⟩
  | true =>
    cases hdev : lookupKV st.devices devId with
    | none =>
      cases ev with
      | timeout r0 => simp [stepEvent, hdev, pendingAt, invocationsFor]
      | response r0 dat =>
        simp [stepEvent, handleResponseMessage, hdev, pendingAt, invocationsFor]
    | some dev =>
      have hprid : lookupKV dev.pending_requests rid = none := by
        simpa [pendingAt, hdev] using hp
      cases ev with
      | timeout r0 =>
        have hr0 : r0 = rid := eq_of_beq hresp
        subst hr0
        simp [stepEvent, hdev, DeviceConnection.timeoutFire, hprid, pendingAt,
          invocationsFor, lookupKV_setKV_self]
      | response r0 dat =>
        have hr0 : r0 = rid := eq_of_beq hresp
        subst hr0
        simp [stepEvent, handleResponseMessage, hdev, hprid, pendingAt,
          invocationsFor]

theorem invocationsFor_append (rid : String) (a b : List Response) :
    invocationsFor rid (a ++ b) = invocationsFor rid a + invocationsFor rid b := by
  simp [invocationsFor, List.filter_append]

/-- While the entry for `rid` stays absent, a whole run invokes nothing
for `rid`. -/
theorem runEvents_absent (devId rid : String) :
    ∀ (evs : List WireEvent) (st : MCPServer),
      pendingAt st devId rid = none →
      invocationsFor rid (runEvents st devId evs).2 = 0 := by
  intro evs
  induction evs with
  | nil => intro st _; simp [runEvents, invocationsFor]
  | cons ev evs ih =>
    intro st hp
    have h := stepEvent_absent st devId rid ev hp
    simp only [runEvents, invocationsFor_append]
    rw [h.2, ih _ h.1]

/-- Exactly-once delivery: with `rid` pending, any interleaving of
response frames and the timeout invokes the continuation once if some
event targets `rid`, and never more than once. -/
theorem runEvents_once (devId rid : String) :
    ∀ (evs : List WireEvent) (st : MCPServer) (e : PendingEntry),
      pendingAt st devId rid = some e →
      invocationsFor rid (runEvents st devId evs).2 =
        (if evs.any (respondsTo rid) then 1 else 0) := by
  intro evs
  induction evs with
  | nil => intro st e _; simp [runEvents, invocationsFor]
  | cons ev evs ih =>
    intro st e hp
    cases hresp : respondsTo rid ev with
    | true =>
      have h := stepEvent_hit st devId rid ev e hresp hp
      simp only [runEvents, invocationsFor_append]
      rw [h.2, runEvents_absent devId rid evs _ h.1]
      simp [List.any_cons, hresp]
    | false =>
      have h := stepEvent_other st devId rid ev hresp
      simp only [runEvents, invocationsFor_append]
      rw [h.2, ih _ e (h.1.trans hp)]
      simp [List.any_cons, hresp]

/-! ## Connection lifecycle: handshake, registration, disconnect cleanup -/

/-- The parsed first frame of a connection, as read by
`MCPServer._handle_handshake` (`deviceInfo` is only logged and elided). -/
structure HandshakeMsg where
  type : Option String := none
  deviceId : Option String := none
deriving DecidableEq, Repr

/-- A frame the server writes back during connection setup. -/
inductive ServerOut where
  | handshakeResponse (status : String)
  | welcome (device_id : String)
deriving DecidableEq, Repr

/-- `MCPServer._handle_handshake`: `none` input models every way of not
obtaining a parsed first frame within the 10-second socket deadline
(timeout, EOF, undecodable bytes, malformed JSON — the code returns `None`
for each).  A frame whose `type` is not `"handshake"` or whose `deviceId`
is missing or empty (`if not device_id`) is rejected; otherwise the
`handshake_response`/`ok` reply is written and the device id returned. -/
def handleHandshake : Option HandshakeMsg → Option String × List ServerOut
  | none => (none, [])
  | some m =>
    if m.type ≠ some "handshake" then (none, [])
    else
      match m.deviceId with
      | none => (none, [])
      | some id =>
        if id = "" then (none, [])
        else (some id, [ServerOut.handshakeResponse "ok"])

/-- `DeviceConnection(device_id)` followed by `device.socket = client_socket`,
as built by `MCPServer._handle_client` on handshake success. -/
def freshDevice (id : String) : DeviceConnection :=
  { device_id := id, connected := true, hasSocket := true,
    pending_requests := [] }

/-- The setup part of `MCPServer._handle_client`: run the handshake; on
failure close the socket without registering anything; on success register
the fresh `DeviceConnection` under its device id and send the welcome
frame. -/
def handleClientSetup (st : MCPServer) (first : Option HandshakeMsg) :
    MCPServer × List ServerOut :=
  match handleHandshake first with
  | (none, _) => (st, [])
  | (some id, outs) =>
    ({ st with devices := setKV st.devices id (freshDevice id) },
     outs ++ [ServerOut.welcome id])

/-- The `finally` cleanup of `MCPServer._handle_client`: if a device id was
established, mark its connection as not connected and pop it from the
registry.  (The source repeats the same guarded block twice; the second
pass finds the id already gone and does nothing.)  The popped
`DeviceConnection` object survives — the read loop and every armed timeout
watchdog still hold it — so it is returned.  The returned invocation list
is the continuations this cleanup resolves: the code resolves none. -/
def handleClientCleanup (st : MCPServer) (device_id : Option String) :
    MCPServer × Option DeviceConnection × List Response :=
  match device_id with
  | none => (st, none, [])
  | some id =>
    match lookupKV st.devices id with
    | none => (st, none, [])
    | some dev =>
      ({ st with devices := removeKV st.devices id },
       some { dev with connected := false }, [])

/-! ## Action-sequence serialization (`MCPServer._execute_actions`) -/

/-- The parameter mapping `MCPServer._execute_actions` builds for one
action: a `launch_app` action with a `fullComponent` parameter, or with
both `packageName` and `activityName`, is rewritten to a single
`component` parameter; any other action's `params` pass through untouched.
The `action_type` is `action.get("action")`. -/
def buildLaunchParams (action_type : Option String)
    (params : List (String × String)) : List (String × String) :=
  if action_type = some "launch_app" then
    if hasKey params "fullComponent" then
      [("component", getKV params "fullComponent" "")]
    else if hasKey params "packageName" && hasKey params "activityName" then
      [("component",
        getKV params "packageName" "" ++ "/" ++ getKV params "activityName" "")]
    else params
  else params

/-! ## Claim theorems: wire protocol and correlation engine -/

/-- C1: for every request sent through `DeviceConnection.send_request` with
a continuation while the device is connected, the continuation is invoked
exactly once per request id under every interleaving of the device's
response frames and the request's 60-time-unit timeout watchdog (which
always fires, hence the membership hypothesis): whichever event removes
the id from the pending table first invokes the continuation, the loser's
invocation is suppressed. -/
theorem send_request_continuation_exactly_once
    (dev : DeviceConnection) (req : Request) (now : Nat) (evs : List WireEvent)
    (hconn : dev.connected = true) (hsock : dev.hasSocket = true)
    (htimeout : WireEvent.timeout req.request_id ∈ evs) :
    invocationsFor req.request_id
      ((dev.sendRequest req true now).2.1 ++
        (runEvents ⟨[(dev.device_id, (dev.sendRequest req true now).1)]⟩
          dev.device_id evs).2) = 1 := by
  have hsend1 : (dev.sendRequest req true now).1 =
      { dev with
          pending_requests :=
            setKV dev.pending_requests req.request_id ({ request := req }) } := by
    simp [DeviceConnection.sendRequest, hconn, hsock]
  have hsend2 : (dev.sendRequest req true now).2.1 = [] := by
    simp [DeviceConnection.sendRequest, hconn, hsock]
  have hpend : pendingAt ⟨[(dev.device_id, (dev.sendRequest req true now).1)]⟩
      dev.device_id req.request_id = some ({ request := req }) := by
    rw [pendingAt_singleton, hsend1]
    exact lookupKV_setKV_self _ _ _
  have hany : evs.any (respondsTo req.request_id) = true :=
    List.any_eq_true.mpr ⟨_, htimeout, by simp [respondsTo]⟩
  rw [invocationsFor_append, hsend2,
    runEvents_once dev.device_id req.request_id evs _ _ hpend, hany]
  simp [invocationsFor]

/-- Witness for C1 at a concrete device, request and interleaving in which
the response and the timeout both fire (response first). -/
theorem send_request_continuation_exactly_once_witness :
    invocationsFor "r1"
      (((freshDevice "dev1").sendRequest
          { request_id := "r1", action_type := "get_ui_state" } true 0).2.1 ++
        (runEvents
          ⟨[((freshDevice "dev1").device_id,
             ((freshDevice "dev1").sendRequest
               { request_id := "r1", action_type := "get_ui_state" } true 0).1)]⟩
          (freshDevice "dev1").device_id
          [WireEvent.response "r1" [("status", "success")],
           WireEvent.timeout "r1"]).2) = 1 :=
  send_request_continuation_exactly_once (freshDevice "dev1")
    { request_id := "r1", action_type := "get_ui_state" } 0
    [WireEvent.response "r1" [("status", "success")], WireEvent.timeout "r1"]
    rfl rfl (by decide)

/-- One pending request on a registered device: the scene for the C2
counterexample. -/
def cleanupSceneDevice : DeviceConnection :=
  { device_id := "dev1", connected := true, hasSocket := true,
    pending_requests :=
      [("r1", { request := { request_id := "r1", action_type := "click" } })] }

/-- The server holding `cleanupSceneDevice`. -/
def cleanupSceneServer : MCPServer := ⟨[("dev1", cleanupSceneDevice)]⟩

/-- C2 counterexample: with request `"r1"` still pending on device
`"dev1"`, the disconnect cleanup of `MCPServer._handle_client` resolves no
continuation at all — in particular none with a "device gone" failure —
and the popped connection object still carries the pending entry. -/
theorem disconnect_cleanup_resolves_nothing_cex :
    pendingAt cleanupSceneServer "dev1" "r1" =
      some { request := { request_id := "r1", action_type := "click" } } ∧
    (handleClientCleanup cleanupSceneServer (some "dev1")).2.2 = [] ∧
    ¬ (∃ inv ∈ (handleClientCleanup cleanupSceneServer (some "dev1")).2.2,
        inv.request_id = "r1") ∧
    lookupKV
      (((handleClientCleanup cleanupSceneServer (some "dev1")).2.1.getD
          (freshDevice "x")).pending_requests) "r1" =
      some { request := { request_id := "r1", action_type := "click" } } := by
  refine ⟨by decide, by decide, ?_, by decide⟩
  intro h
  rcases h with ⟨inv, hmem, _⟩
  have : (handleClientCleanup cleanupSceneServer (some "dev1")).2.2 = [] := by decide
  rw [this] at hmem
  exact absurd hmem (List.not_mem_nil inv)

/-- C2 amended: the disconnect cleanup only marks the connection as not
connected and pops the device from the registry; it resolves no pending
continuation and emits no "device gone" failure.  Each still-pending
continuation is instead resolved by its own request's 60-time-unit timeout
watchdog — which still holds the popped connection object — with a
"Request timed out" failure, so no continuation is leaked. -/
theorem disconnect_cleanup_defers_to_timeout
    (st : MCPServer) (id rid : String) (dev : DeviceConnection)
    (e : PendingEntry)
    (hdev : lookupKV st.devices id = some dev)
    (hpend : lookupKV dev.pending_requests rid = some e) :
    (handleClientCleanup st (some id)).2.2 = [] ∧
    (handleClientCleanup st (some id)).2.1 =
      some { dev with connected := false } ∧
    lookupKV (handleClientCleanup st (some id)).1.devices id = none ∧
    (({ dev with connected := false } : DeviceConnection).timeoutFire rid).2 =
      [{ request_id := rid, status := some "error",
         error := some "Request timed out" }] ∧
    lookupKV
      (({ dev with connected := false } : DeviceConnection).timeoutFire
        rid).1.pending_requests rid = none := by
  refine ⟨?_, ?_, ?_, ?_, ?_⟩
  · simp [handleClientCleanup, hdev]
  · simp [handleClientCleanup, hdev]
  · simp [handleClientCleanup, hdev, lookupKV_removeKV_self]
  · simp [DeviceConnection.timeoutFire, hpend]
  · simp [DeviceConnection.timeoutFire, hpend, lookupKV_removeKV_self]

/-- Witness for the amended C2 on the concrete one-pending-request scene. -/
theorem disconnect_cleanup_defers_to_timeout_witness :
    (handleClientCleanup cleanupSceneServer (some "dev1")).2.2 = [] ∧
    (handleClientCleanup cleanupSceneServer (some "dev1")).2.1 =
      some { cleanupSceneDevice with connected := false } ∧
    lookupKV (handleClientCleanup cleanupSceneServer (some "dev1")).1.devices
      "dev1" = none ∧
    (({ cleanupSceneDevice with connected := false } :
        DeviceConnection).timeoutFire "r1").2 =
      [{ request_id := "r1", status := some "error",
         error := some "Request timed out" }] ∧
    lookupKV
      (({ cleanupSceneDevice with connected := false } :
          DeviceConnection).timeoutFire "r1").1.pending_requests "r1" =
      none :=
  disconnect_cleanup_defers_to_timeout cleanupSceneServer "dev1" "r1"
    cleanupSceneDevice
    { request := { request_id := "r1", action_type := "click" } }
    (by decide) (by decide)

/-- C5: a `response` frame whose `requestId` is absent from the device's
pending table — including a frame with no `requestId` at all — is dropped
silently: the server state is unchanged and no continuation is invoked. -/
theorem unknown_request_id_response_is_noop
    (st : MCPServer) (devId rid : String) (data : List (String × String))
    (dev : DeviceConnection)
    (hdev : lookupKV st.devices devId = some dev)
    (habsent : lookupKV dev.pending_requests rid = none) :
    handleResponseMessage st devId (some rid) data = (st, []) ∧
    handleResponseMessage st devId none data = (st, []) := by
  constructor
  · simp [handleResponseMessage, hdev, habsent]
  · simp [handleResponseMessage, hdev]

/-- Witness for C5: an unknown `"r9"` response against the one-pending
scene is a no-op. -/
theorem unknown_request_id_response_is_noop_witness :
    handleResponseMessage cleanupSceneServer "dev1" (some "r9")
      [("status", "success")] = (cleanupSceneServer, []) ∧
    handleResponseMessage cleanupSceneServer "dev1" none
      [("status", "success")] = (cleanupSceneServer, []) :=
  unknown_request_id_response_is_noop cleanupSceneServer "dev1" "r9"
    [("status", "success")] cleanupSceneDevice (by decide) (by decide)

/-- C8: a first frame that is not a well-formed handshake — no frame within
the bound (`none`), a non-`"handshake"` type, or a missing/empty
`deviceId` — aborts the connection attempt with no device registered and
nothing written back; a valid handshake makes the server write the
`handshake_response`/`ok` reply followed by the welcome frame, and
registers the fresh device. -/
theorem handshake_gates_registration :
    (∀ st : MCPServer, handleClientSetup st none = (st, [])) ∧
    (∀ (st : MCPServer) (m : HandshakeMsg), m.type ≠ some "handshake" →
        handleClientSetup st (some m) = (st, [])) ∧
    (∀ (st : MCPServer) (m : HandshakeMsg),
        m.deviceId = none ∨ m.deviceId = some "" →
        handleClientSetup st (some m) = (st, [])) ∧
    (∀ (st : MCPServer) (m : HandshakeMsg) (id : String),
        m.type = some "handshake" → m.deviceId = some id → id ≠ "" →
        (handleClientSetup st (some m)).2 =
          [ServerOut.handshakeResponse "ok", ServerOut.welcome id] ∧
        lookupKV (handleClientSetup st (some m)).1.devices id =
          some (freshDevice id)) := by
  refine ⟨?_, ?_, ?_, ?_⟩
  · intro st; simp [handleClientSetup, handleHandshake]
  · intro st m hm; simp [handleClientSetup, handleHandshake, hm]
  · intro st m hm
    rcases hm with hm | hm
    · by_cases ht : m.type = some "handshake" <;>
        simp [handleClientSetup, handleHandshake, hm, ht]
    · by_cases ht : m.type = some "handshake" <;>
        simp [handleClientSetup, handleHandshake, hm, ht]
  · intro st m id ht hid hne
    constructor
    · simp [handleClientSetup, handleHandshake, ht, hid, hne]
    · simp [handleClientSetup, handleHandshake, ht, hid, hne,
        lookupKV_setKV_self]

/-- Witness for C8: a rejected `"heartbeat"` first frame, a rejected empty
device id, and an accepted `handshake` frame for `"dev1"`. -/
theorem handshake_gates_registration_witness :
    handleClientSetup ⟨[]⟩
      (some { type := some "heartbeat", deviceId := some "dev1" }) =
      (⟨[]⟩, []) ∧
    handleClientSetup ⟨[]⟩
      (some { type := some "handshake", deviceId := some "" }) = (⟨[]⟩, []) ∧
    (handleClientSetup ⟨[]⟩
        (some { type := some "handshake", deviceId := some "dev1" })).2 =
      [ServerOut.handshakeResponse "ok", ServerOut.welcome "dev1"] ∧
    lookupKV
      (handleClientSetup ⟨[]⟩
        (some { type := some "handshake", deviceId := some "dev1" })).1.devices
      "dev1" = some (freshDevice "dev1") := by
  refine ⟨?_, ?_, ?_, ?_⟩
  · exact handshake_gates_registration.2.1 ⟨[]⟩ _ (by decide)
  · exact handshake_gates_registration.2.2.1 ⟨[]⟩ _ (Or.inr rfl)
  · exact (handshake_gates_registration.2.2.2 ⟨[]⟩ _ "dev1" rfl rfl
      (by decide)).1
  · exact (handshake_gates_registration.2.2.2 ⟨[]⟩ _ "dev1" rfl rfl
      (by decide)).2

/-- C9: a `launch_app` action whose params carry a `packageName` and
neither `fullComponent` nor `activityName` passes its parameter mapping
through unchanged, and the serialized request frame carries exactly that
mapping — no `component` synthesized, no key added or removed. -/
theorem launch_app_params_passthrough
    (conn : DeviceConnection) (params : List (String × String))
    (pkg rid sid : String) (now : Nat)
    (hconn : conn.connected = true) (hsock : conn.hasSocket = true)
    (hfc : lookupKV params "fullComponent" = none)
    (han : lookupKV params "activityName" = none)
    (_hpkg : lookupKV params "packageName" = some pkg) :
    buildLaunchParams (some "launch_app") params = params ∧
    (conn.sendRequest
        { request_id := rid, action_type := "launch_app",
          parameters := buildLaunchParams (some "launch_app") params,
          session_id := some sid } true now).2.2 =
      some { type := "request", requestId := rid, actionType := "launch_app",
             parameters := params, timestamp := now,
             sessionId := some sid } := by
  have h1 : buildLaunchParams (some "launch_app") params = params := by
    simp [buildLaunchParams, hasKey, hfc, han]
  exact ⟨h1, by simp [DeviceConnection.sendRequest, hconn, hsock, h1]⟩

/-- Witness for C9 at `params = {"packageName": "com.example.app"}`. -/
theorem launch_app_params_passthrough_witness :
    buildLaunchParams (some "launch_app")
      [("packageName", "com.example.app")] =
      [("packageName", "com.example.app")] ∧
    ((freshDevice "dev1").sendRequest
        { request_id := "r1", action_type := "launch_app",
          parameters :=
            buildLaunchParams (some "launch_app")
              [("packageName", "com.example.app")],
          session_id := some "s1" } true 7).2.2 =
      some { type := "request", requestId := "r1", actionType := "launch_app",
             parameters := [("packageName", "com.example.app")],
             timestamp := 7, sessionId := some "s1" } :=
  launch_app_params_passthrough (freshDevice "dev1")
    [("packageName", "com.example.app")] "com.example.app" "r1" "s1" 7
    rfl rfl (by decide) (by decide) (by decide)

/-! ## UI trees
A device-reported UI node, as consumed by `app_deep_explorer.AppExplorer`.
String-valued keys are read with default `""` by the code, so they are
plain strings here; boolean keys, `bounds`, `index` and `parent` are
`Option`s because the code distinguishes key presence for them
(`"clickable" in node`, `if bounds:`, the mutation of `index`/`parent`).
A `bounds` dict is itself an association list so an explicitly empty
`{}` (falsy, skipped by the repair) is representable. -/
structure NodeData where
  className : String := ""
  text : String := ""
  contentDescription : String := ""
  viewIdResourceName : String := ""
  clickable : Option Bool := none
  longClickable : Option Bool := none
  checkable : Option Bool := none
  checked : Option Bool := none
  selected : Option Bool := none
  enabled : Option Bool := none
  focusable : Option Bool := none
  focused : Option Bool := none
  scrollable : Option Bool := none
  isPassword : Option Bool := none
  bounds : Option (List (String × Int)) := none
  index : Option Nat := none
  parentClassName : Option String := none
deriving DecidableEq, Repr

/-- A UI tree: a node dict with its ordered `children` list. -/
inductive UINode where
  | mk (data : NodeData) (children : List UINode)

def UINode.data : UINode → NodeData
  | .mk d _ => d

def UINode.children : UINode → List UINode
  | .mk _ cs => cs

mutual

/-- Number of nodes of a tree (`AppExplorer._count_elements` on a truthy
node, and the induction measure for tree recursions). -/
def UINode.size : UINode → Nat
  | .mk _ cs => 1 + UINode.sizeList cs

def UINode.sizeList : List UINode → Nat
  | [] => 0
  | c :: cs => UINode.size c + UINode.sizeList cs

end

theorem UINode.size_pos : ∀ n : UINode, 0 < n.size
  | .mk _ cs => by
    show 0 < 1 + UINode.sizeList cs
    omega

theorem UINode.size_le_sizeList {c : UINode} :
    ∀ {cs : List UINode}, c ∈ cs → c.size ≤ UINode.sizeList cs := by
  intro cs
  induction cs with
  | nil => intro h; exact absurd h (List.not_mem_nil c)
  | cons d ds ih =>
    intro h
    rcases List.mem_cons.mp h with h1 | h2
    · subst h1
      show c.size ≤ c.size + UINode.sizeList ds
      omega
    · have hle := ih h2
      show c.size ≤ d.size + UINode.sizeList ds
      omega

/-- Strong induction over UI trees: to prove `P` everywhere it suffices to
prove it at each node given it on all children. -/
theorem UINode.strong_ind (P : UINode → Prop)
    (h : ∀ d cs, (∀ c ∈ cs, P c) → P (.mk d cs)) : ∀ n, P n := by
  have key : ∀ (k : Nat) (n : UINode), n.size ≤ k → P n := by
    intro k
    induction k with
    | zero =>
      intro n hn
      exact absurd (Nat.lt_of_lt_of_le (UINode.size_pos n) hn) (by omega)
    | succ k ih =>
      intro n hn
      cases n with
      | mk d cs =>
        apply h
        intro c hc
        apply ih
        have h1 : c.size ≤ UINode.sizeList cs := UINode.size_le_sizeList hc
        have h2 : UINode.size (.mk d cs) = 1 + UINode.sizeList cs := rfl
        omega
  intro n
  exact key n.size n le_rfl

/-- Python's `in` on strings: `strContains hay needle` is
`needle in hay`. -/
def strContains (hay needle : String) : Bool :=
  hay.toList.tails.any (fun t => needle.toList.isPrefixOf t)

/-- `class_name.split(".")[-1]`. -/
def lastDotComponent (s : String) : String :=
  ((s.splitOn ".").getLast?).getD s

/-- Python `str.isalnum` restricted to the ASCII range the concrete
inputs of this development use. -/
def pyIsAlnum (c : Char) : Bool :=
  c.isAlphanum

/-! ## Screen signatures (`AppExplorer._generate_screen_signature`) -/

mutual

/-- The `extract_texts` pass: texts of length > 1, collected from nodes at
depth ≤ 3, visiting only the first 5 children per node (the child is
visited with `depth + 1` and the bound is checked on entry, exactly as in
the source's default `max_depth=3`). -/
def extractTexts (depth : Nat) : UINode → List String
  | .mk d cs =>
    if depth > 3 then []
    else
      (if d.text.length > 1 then [d.text] else []) ++
        extractTextsFromList (depth + 1) 5 cs

/-- `for child in node.get("children", [])[:5]: extract_texts(child, depth+1)`,
with the `[:5]` slice expressed as a budget. -/
def extractTextsFromList (depth budget : Nat) : List UINode → List String
  | [] => []
  | c :: cs =>
    if budget = 0 then []
    else extractTexts depth c ++ extractTextsFromList depth (budget - 1) cs

end

mutual

/-- The `extract_class_names` fallback pass: last dot-component of each
non-empty class name, depth ≤ 2, first 3 children per node. -/
def extractClassNames (depth : Nat) : UINode → List String
  | .mk d cs =>
    if depth > 2 then []
    else
      (if d.className ≠ "" then [lastDotComponent d.className] else []) ++
        extractClassNamesFromList (depth + 1) 3 cs

def extractClassNamesFromList (depth budget : Nat) : List UINode → List String
  | [] => []
  | c :: cs =>
    if budget = 0 then []
    else extractClassNames depth c ++ extractClassNamesFromList depth (budget - 1) cs

end

/-- The tail of `_generate_screen_signature` once some strings were
collected: join the first 3 with `_`, keep alphanumerics and `_`, cap at
30 characters. -/
def mkTextSig (texts : List String) : String :=
  let text_sig := String.intercalate "_" (texts.take 3)
  let text_sig := String.mk (text_sig.toList.filter (fun c => pyIsAlnum c || c == '_'))
  if text_sig.length > 30 then text_sig.take 30 else text_sig

/-- `AppExplorer._generate_screen_signature`.  `none` is the falsy
(empty/missing) `ui_hierarchy`; `now` is the `time.time() % 10000` read
the time-derived placeholder formats, at time-unit granularity. -/
def generateScreenSignature (ui_hierarchy : Option UINode) (now : Nat) : String :=
  match ui_hierarchy with
  | none => "empty"
  | some root =>
    let texts := extractTexts 0 root
    let texts := if texts.isEmpty then extractClassNames 0 root else texts
    if texts.isEmpty then "screen_" ++ toString (now % 10000)
    else mkTextSig texts

/-- What a capped traversal can observe of a tree: one string per visited
node, with the visit order and nesting preserved. -/
inductive TreeView where
  | mk (label : String) (children : List TreeView)

mutual

/-- The part of a tree the text pass can observe: texts of nodes at depth
≤ 3 along first-5-children paths.  Children that the pass would never
visit are absent from the view. -/
def textView (depth : Nat) : UINode → TreeView
  | .mk d cs =>
    if depth > 3 then .mk "" []
    else .mk d.text (textViewList (depth + 1) 5 cs)

def textViewList (depth budget : Nat) : List UINode → List TreeView
  | [] => []
  | c :: cs =>
    if budget = 0 ∨ depth > 3 then []
    else textView depth c :: textViewList depth (budget - 1) cs

end

mutual

/-- The part of a tree the class-name fallback pass can observe: class
names of nodes at depth ≤ 2 along first-3-children paths. -/
def classView (depth : Nat) : UINode → TreeView
  | .mk d cs =>
    if depth > 2 then .mk "" []
    else .mk d.className (classViewList (depth + 1) 3 cs)

def classViewList (depth budget : Nat) : List UINode → List TreeView
  | [] => []
  | c :: cs =>
    if budget = 0 ∨ depth > 2 then []
    else classView depth c :: classViewList depth (budget - 1) cs

end

mutual

/-- Replay of the text pass on a view. -/
def viewTexts : TreeView → List String
  | .mk t cs => (if t.length > 1 then [t] else []) ++ viewTextsList cs

def viewTextsList : List TreeView → List String
  | [] => []
  | v :: vs => viewTexts v ++ viewTextsList vs

end

mutual

/-- Replay of the class-name pass on a view. -/
def viewClassNames : TreeView → List String
  | .mk t cs =>
    (if t ≠ "" then [lastDotComponent t] else []) ++ viewClassNamesList cs

def viewClassNamesList : List TreeView → List String
  | [] => []
  | v :: vs => viewClassNames v ++ viewClassNamesList vs

end

theorem extractTextsFromList_deep (dd : Nat) (hd : dd > 3) :
    ∀ (b : Nat) (cs : List UINode), extractTextsFromList dd b cs = [] := by
  intro b cs
  induction cs generalizing b with
  | nil => rfl
  | cons c rest ih =>
    by_cases hb : b = 0
    · simp [extractTextsFromList, hb]
    · have hnode : extractTexts dd c = [] := by
        cases c with
        | mk dc csc => simp [extractTexts, hd]
      simp [extractTextsFromList, hb, hnode, ih]

theorem textViewList_deep (dd : Nat) (hd : dd > 3) :
    ∀ (b : Nat) (cs : List UINode), textViewList dd b cs = [] := by
  intro b cs
  cases cs with
  | nil => rfl
  | cons c rest => simp [textViewList, hd]

theorem extractClassNamesFromList_deep (dd : Nat) (hd : dd > 2) :
    ∀ (b : Nat) (cs : List UINode), extractClassNamesFromList dd b cs = [] := by
  intro b cs
  induction cs generalizing b with
  | nil => rfl
  | cons c rest ih =>
    by_cases hb : b = 0
    · simp [extractClassNamesFromList, hb]
    · have hnode : extractClassNames dd c = [] := by
        cases c with
        | mk dc csc => simp [extractClassNames, hd]
      simp [extractClassNamesFromList, hb, hnode, ih]

theorem classViewList_deep (dd : Nat) (hd : dd > 2) :
    ∀ (b : Nat) (cs : List UINode), classViewList dd b cs = [] := by
  intro b cs
  cases cs with
  | nil => rfl
  | cons c rest => simp [classViewList, hd]

/-- The text pass reads exactly the text view of the tree. -/
theorem extractTexts_eq_view :
    ∀ n : UINode, ∀ depth : Nat,
      extractTexts depth n = viewTexts (textView depth n) := by
  intro n
  induction n using UINode.strong_ind with
  | _ d cs ih =>
    intro depth
    have hlist : ∀ (cs' : List UINode), (∀ c ∈ cs', ∀ dd : Nat,
        extractTexts dd c = viewTexts (textView dd c)) →
        ∀ (dd b : Nat), extractTextsFromList dd b cs' =
          viewTextsList (textViewList dd b cs') := by
      intro cs'
      induction cs' with
      | nil => intro _ dd b; cases b <;> simp [extractTextsFromList, textViewList, viewTextsList]
      | cons c rest ihr =>
        intro hmem dd b
        by_cases hb : b = 0
        · simp [extractTextsFromList, textViewList, viewTextsList, hb]
        · by_cases hd : dd > 3
          · rw [extractTextsFromList_deep dd hd, textViewList_deep dd hd]; rfl
          · simp [extractTextsFromList, textViewList, viewTextsList, hb, hd,
              hmem c (List.mem_cons_self c rest),
              ihr (fun x hx => hmem x (List.mem_cons_of_mem c hx))]
    by_cases hdep : depth > 3
    · simp [extractTexts, textView, viewTexts, viewTextsList, hdep]
    · simp [extractTexts, textView, viewTexts, hdep, hlist cs ih]

/-- The class-name pass reads exactly the class view of the tree. -/
theorem extractClassNames_eq_view :
    ∀ n : UINode, ∀ depth : Nat,
      extractClassNames depth n = viewClassNames (classView depth n) := by
  intro n
  induction n using UINode.strong_ind with
  | _ d cs ih =>
    intro depth
    have hlist : ∀ (cs' : List UINode), (∀ c ∈ cs', ∀ dd : Nat,
        extractClassNames dd c = viewClassNames (classView dd c)) →
        ∀ (dd b : Nat), extractClassNamesFromList dd b cs' =
          viewClassNamesList (classViewList dd b cs') := by
      intro cs'
      induction cs' with
      | nil => intro _ dd b; cases b <;> simp [extractClassNamesFromList, classViewList, viewClassNamesList]
      | cons c rest ihr =>
        intro hmem dd b
        by_cases hb : b = 0
        · simp [extractClassNamesFromList, classViewList, viewClassNamesList, hb]
        · by_cases hd : dd > 2
          · rw [extractClassNamesFromList_deep dd hd, classViewList_deep dd hd]; rfl
          · simp [extractClassNamesFromList, classViewList, viewClassNamesList,
              hb, hd, hmem c (List.mem_cons_self c rest),
              ihr (fun x hx => hmem x (List.mem_cons_of_mem c hx))]
    by_cases hdep : depth > 2
    · simp [extractClassNames, classView, viewClassNames, viewClassNamesList, hdep]
    · simp [extractClassNames, classView, viewClassNames, hdep, hlist cs ih]

theorem gss_eval (root : UINode) (now : Nat) :
    generateScreenSignature (some root) now =
      (if (if (extractTexts 0 root).isEmpty then extractClassNames 0 root
           else extractTexts 0 root).isEmpty
       then "screen_" ++ toString (now % 10000)
       else mkTextSig (if (extractTexts 0 root).isEmpty
         then extractClassNames 0 root else extractTexts 0 root)) := rfl

theorem gss_time_indep (root : UINode)
    (h : extractTexts 0 root ≠ [] ∨ extractClassNames 0 root ≠ [])
    (n1 n2 : Nat) :
    generateScreenSignature (some root) n1 =
      generateScreenSignature (some root) n2 := by
  by_cases ht : (extractTexts 0 root).isEmpty = true
  · have hclsne : extractClassNames 0 root ≠ [] := by
      rcases h with h | h
      · exfalso
        apply h
        cases hx : extractTexts 0 root with
        | nil => rfl
        | cons a as => rw [hx] at ht; simp at ht
      · exact h
    have hcls : (extractClassNames 0 root).isEmpty = false := by
      cases hx : extractClassNames 0 root with
      | nil => exact absurd hx hclsne
      | cons a as => rfl
    rw [gss_eval, gss_eval]
    simp [ht, hcls]
  · have ht' : (extractTexts 0 root).isEmpty = false := by
      cases hx : (extractTexts 0 root).isEmpty with
      | true => exact absurd hx ht
      | false => rfl
    rw [gss_eval, gss_eval]
    simp [ht']

/-- C4 counterexample: screen-signature generation is not a function of
the UI tree alone.  On the tree consisting of one node with no text and no
class name, both passes collect nothing and the signature falls back to
the time-derived placeholder, so the same tree yields different
signatures at generation times 0 and 1. -/
theorem screen_signature_time_dependent_cex :
    generateScreenSignature (some (UINode.mk {} [])) 0 ≠
      generateScreenSignature (some (UINode.mk {} [])) 1 := by
  decide

/-- C4 amended: apart from the time-derived placeholder, signature
generation is deterministic and has bounded sensitivity.  Two trees that
agree on everything the capped passes can observe (text pass: depth ≤ 3,
first 5 children per node; class-name pass: depth ≤ 2, first 3 children)
generate equal signatures at any one generation time; and whenever a tree
yields at least one string within the caps, its signature is independent
of the generation time (the placeholder case being exactly the remaining
one). -/
theorem screen_signature_bounded_deterministic
    (t1 t2 : UINode) (now : Nat)
    (htext : textView 0 t1 = textView 0 t2)
    (hclass : classView 0 t1 = classView 0 t2) :
    generateScreenSignature (some t1) now =
      generateScreenSignature (some t2) now ∧
    ((extractTexts 0 t1 ≠ [] ∨ extractClassNames 0 t1 ≠ []) →
      ∀ n1 n2 : Nat,
        generateScreenSignature (some t1) n1 =
          generateScreenSignature (some t1) n2) := by
  have e1 : extractTexts 0 t1 = extractTexts 0 t2 := by
    rw [extractTexts_eq_view, extractTexts_eq_view, htext]
  have e2 : extractClassNames 0 t1 = extractClassNames 0 t2 := by
    rw [extractClassNames_eq_view, extractClassNames_eq_view, hclass]
  refine ⟨?_, fun h n1 n2 => gss_time_indep t1 h n1 n2⟩
  rw [gss_eval, gss_eval, e1, e2]

/-- A 4-level chain of text nodes. -/
def sigTreeA : UINode :=
  .mk { text := "login" }
    [.mk { text := "aa" } [.mk { text := "bb" } [.mk { text := "dd" } []]]]

/-- `sigTreeA` with one extra node at depth 4 — beyond both traversal
caps. -/
def sigTreeB : UINode :=
  .mk { text := "login" }
    [.mk { text := "aa" }
      [.mk { text := "bb" } [.mk { text := "dd" } [.mk { text := "extra" } []]]]]

/-- Witness for the amended C4: the two concrete trees differ (only at
depth 4), generate the same signature, and the signature of a tree with
texts is time-independent. -/
theorem screen_signature_bounded_deterministic_witness :
    sigTreeA ≠ sigTreeB ∧
    generateScreenSignature (some sigTreeA) 5 =
      generateScreenSignature (some sigTreeB) 5 ∧
    generateScreenSignature (some sigTreeA) 0 =
      generateScreenSignature (some sigTreeA) 99 :=
  ⟨fun h => absurd (congrArg UINode.size h) (by decide),
   (screen_signature_bounded_deterministic sigTreeA sigTreeB 5 rfl rfl).1,
   (screen_signature_bounded_deterministic sigTreeA sigTreeA 99 rfl rfl).2
     (Or.inl (by decide)) 0 99⟩

/-! ## Selector synthesis (`AppExplorer._create_selector_for_element`) -/

/-- A selector value: string attribute, boolean flag, or bounds dict. -/
inductive SelVal where
  | s (v : String)
  | b (v : Bool)
  | bounds (v : List (String × Int))
deriving DecidableEq, Repr

/-- The selector dict before the final emptiness check, in the source's
insertion order: `resourceId` (if truthy), `text` (if non-empty),
`contentDescription` (if non-empty), `className` (if truthy), `bounds`
(only if present, non-empty and with positive width and height), then each
of `clickable`/`enabled`/`selected`/`focusable`/`scrollable` whose key is
present on the node. -/
def selectorCore (d : NodeData) : List (String × SelVal) :=
  (if d.viewIdResourceName ≠ "" then
    [("resourceId", SelVal.s d.viewIdResourceName)] else []) ++
  (if d.text ≠ "" then [("text", SelVal.s d.text)] else []) ++
  (if d.contentDescription ≠ "" then
    [("contentDescription", SelVal.s d.contentDescription)] else []) ++
  (if d.className ≠ "" then [("className", SelVal.s d.className)] else []) ++
  (if d.bounds.getD [] ≠ [] ∧
      getKV (d.bounds.getD []) "right" 0 > getKV (d.bounds.getD []) "left" 0 ∧
      getKV (d.bounds.getD []) "bottom" 0 > getKV (d.bounds.getD []) "top" 0
   then [("bounds", SelVal.bounds (d.bounds.getD []))] else []) ++
  (match d.clickable with | some v => [("clickable", SelVal.b v)] | none => []) ++
  (match d.enabled with | some v => [("enabled", SelVal.b v)] | none => []) ++
  (match d.selected with | some v => [("selected", SelVal.b v)] | none => []) ++
  (match d.focusable with | some v => [("focusable", SelVal.b v)] | none => []) ++
  (match d.scrollable with | some v => [("scrollable", SelVal.b v)] | none => [])

/-- `AppExplorer._create_selector_for_element`: the selector, with the
explicit `fallback` marker when nothing qualified. -/
def createSelectorForElement (n : UINode) : List (String × SelVal) :=
  let sel := selectorCore n.data
  if sel = [] then [("fallback", SelVal.s "true")] else sel

/-- C6: selector synthesis never returns an empty selector; a node whose
only attributes are a class name and a bounds dict with `right ≤ left` or
`bottom ≤ top` gets exactly the class-name selector, with the bounds key
omitted; and a node with no qualifying attribute at all gets the explicit
`fallback` marker. -/
theorem selector_synthesis_never_empty :
    (∀ n : UINode, createSelectorForElement n ≠ []) ∧
    (∀ (d : NodeData) (bd : List (String × Int)) (cs : List UINode),
      d.viewIdResourceName = "" → d.text = "" → d.contentDescription = "" →
      d.className ≠ "" → d.bounds = some bd →
      getKV bd "right" 0 ≤ getKV bd "left" 0 ∨
        getKV bd "bottom" 0 ≤ getKV bd "top" 0 →
      d.clickable = none → d.enabled = none → d.selected = none →
      d.focusable = none → d.scrollable = none →
      createSelectorForElement (.mk d cs) =
        [("className", SelVal.s d.className)] ∧
      hasKey (createSelectorForElement (.mk d cs)) "bounds" = false) ∧
    (∀ (d : NodeData) (cs : List UINode),
      d.viewIdResourceName = "" → d.text = "" → d.contentDescription = "" →
      d.className = "" → d.bounds = none →
      d.clickable = none → d.enabled = none → d.selected = none →
      d.focusable = none → d.scrollable = none →
      createSelectorForElement (.mk d cs) =
        [("fallback", SelVal.s "true")]) := by
  refine ⟨?_, ?_, ?_⟩
  · intro n
    by_cases h : selectorCore n.data = [] <;>
      simp [createSelectorForElement, h]
  · intro d bd cs h1 h2 h3 h4 h5 hinv h6 h7 h8 h9 h10
    have hnv : ¬(d.bounds.getD [] ≠ [] ∧
        getKV (d.bounds.getD []) "right" 0 > getKV (d.bounds.getD []) "left" 0 ∧
        getKV (d.bounds.getD []) "bottom" 0 > getKV (d.bounds.getD []) "top" 0) := by
      rw [h5]
      simp only [Option.getD_some]
      rintro ⟨_, hr, hb⟩
      rcases hinv with hle | hle <;> omega
    have hcore : selectorCore d = [("className", SelVal.s d.className)] := by
      simp [selectorCore, h1, h2, h3, h4, hnv, h6, h7, h8, h9, h10]
    constructor
    · simp [createSelectorForElement, UINode.data, hcore]
    · simp [createSelectorForElement, UINode.data, hcore, hasKey, lookupKV,
        List.find?]
  · intro d cs h1 h2 h3 h4 h5 h6 h7 h8 h9 h10
    have hcore : selectorCore d = [] := by
      simp [selectorCore, h1, h2, h3, h4, h5, h6, h7, h8, h9, h10]
    simp [createSelectorForElement, UINode.data, hcore]

/-- Witness for C6: a text-only node always gets a selector; a class-name
node with a degenerate 5-by-20 bounds box (`right = left`) gets exactly
the class-name selector without bounds; the all-default node gets the
fallback marker. -/
theorem selector_synthesis_never_empty_witness :
    createSelectorForElement (.mk { text := "ok" } []) ≠ [] ∧
    createSelectorForElement
        (.mk { className := "android.widget.TextView",
               bounds := some
                 [("left", 5), ("top", 0), ("right", 5), ("bottom", 20)] } []) =
      [("className", SelVal.s "android.widget.TextView")] ∧
    hasKey
      (createSelectorForElement
        (.mk { className := "android.widget.TextView",
               bounds := some
                 [("left", 5), ("top", 0), ("right", 5), ("bottom", 20)] } []))
      "bounds" = false ∧
    createSelectorForElement (.mk {} []) = [("fallback", SelVal.s "true")] :=
  ⟨selector_synthesis_never_empty.1 _,
   (selector_synthesis_never_empty.2.1 _
     [("left", 5), ("top", 0), ("right", 5), ("bottom", 20)] []
     rfl rfl rfl (by decide) rfl (Or.inl (by decide))
     rfl rfl rfl rfl rfl).1,
   (selector_synthesis_never_empty.2.1 _
     [("left", 5), ("top", 0), ("right", 5), ("bottom", 20)] []
     rfl rfl rfl (by decide) rfl (Or.inl (by decide))
     rfl rfl rfl rfl rfl).2,
   selector_synthesis_never_empty.2.2 {} [] rfl rfl rfl rfl rfl rfl rfl rfl
     rfl rfl⟩

/-! ## Element enumeration (`AppExplorer._identify_all_elements`) -/

/-- `AppExplorer.element_types`, in its insertion order (the classification
loop iterates it in order and stops at the first match). -/
def elementTypesTable : List (String × List String) :=
  [("text", ["android.widget.TextView"]),
   ("button", ["android.widget.Button", "android.widget.ImageButton"]),
   ("image", ["android.widget.ImageView"]),
   ("input", ["android.widget.EditText"]),
   ("password", ["android.widget.EditText"]),
   ("list", ["android.widget.ListView", "android.widget.RecyclerView"]),
   ("scroll", ["android.widget.ScrollView", "android.widget.HorizontalScrollView"]),
   ("checkbox", ["android.widget.CheckBox"]),
   ("radio", ["android.widget.RadioButton"]),
   ("switch", ["android.widget.Switch", "android.widget.ToggleButton"]),
   ("spinner", ["android.widget.Spinner"]),
   ("seekbar", ["android.widget.SeekBar"]),
   ("webview", ["android.webkit.WebView"]),
   ("tab", ["android.widget.TabWidget", "com.google.android.material.tabs.TabLayout"]),
   ("drawer", ["androidx.drawerlayout.widget.DrawerLayout"]),
   ("navigation", ["com.google.android.material.navigation.NavigationView",
                   "com.google.android.material.bottomnavigation.BottomNavigationView"])]

/-- The classification loop of `traverse_node` plus the password override:
first table row one of whose class names occurs in the node's class name,
else `"unknown"`; an `input` with the `isPassword` flag becomes
`"password"`. -/
def resolveElementType (className : String) (isPassword : Bool) : String :=
  let base :=
    ((elementTypesTable.find?
        (fun p => p.2.any (fun cls => strContains className cls))).map
      (fun p => p.1)).getD "unknown"
  if base = "input" ∧ isPassword then "password" else base

/-- `right > left and bottom > top` with the source's `get(..., 0)`
defaults. -/
def boundsValid (b : List (String × Int)) : Bool :=
  decide (getKV b "left" 0 < getKV b "right" 0) &&
  decide (getKV b "top" 0 < getKV b "bottom" 0)

/-- The in-place repair of an invalid bounds dict: `right := left + 10`
when `right ≤ left`, then `bottom := top + 10` when `bottom ≤ top`, the
second check reading the dict after the first assignment. -/
def repairBounds (b : List (String × Int)) : List (String × Int) :=
  if boundsValid b then b
  else
    let b1 := if getKV b "right" 0 ≤ getKV b "left" 0
              then setKV b "right" (getKV b "left" 0 + 10) else b
    if getKV b1 "bottom" 0 ≤ getKV b1 "top" 0
    then setKV b1 "bottom" (getKV b1 "top" 0 + 10) else b1

/-- The in-place mutations `traverse_node` performs on every visited node
dict: set `parent` (when a parent was passed), set `index`, and repair a
present, non-empty bounds dict (`if bounds:` skips an absent or empty
one). -/
def mutateData (d : NodeData) (idx : Nat) (parentClass : Option String) :
    NodeData :=
  let d1 := match parentClass with
            | some pc => { d with parentClassName := some pc }
            | none => d
  let d2 := { d1 with index := some idx }
  if d2.bounds.getD [] ≠ [] then
    { d2 with bounds := some (repairBounds (d2.bounds.getD [])) }
  else d2

/-- The element record `traverse_node` stores (the `elements[element_id]`
dict). -/
structure ElementInfo where
  etype : String
  className : String
  text : String
  contentDescription : String
  resourceId : String
  bounds : List (String × Int)
  clickable : Bool
  longClickable : Bool
  checkable : Bool
  checked : Bool
  selected : Bool
  enabled : Bool
  focusable : Bool
  focused : Bool
  scrollable : Bool
  selector : List (String × SelVal)
deriving DecidableEq, Repr

mutual

/-- `traverse_node(node, parent_path, index, parent)`: returns the node as
mutated in place together with the elements recorded in traversal order
(current node first, then its children left to right).  Only the parent's
class name is passed down, which is all `parent.get("className", "")`
reads; the fields the record reads (`text`, `contentDescription`,
`viewIdResourceName`, `className`, flags) are untouched by the mutations,
so they are read off the incoming data. -/
def traverseNode (node : UINode) (parent_path : String) (idx : Nat)
    (parentClass : Option String) : UINode × List (String × ElementInfo) :=
  match node with
  | .mk d cs =>
    let node_id := if parent_path ≠ "" then parent_path ++ "/" ++ toString idx
                   else toString idx
    let d2 := mutateData d idx parentClass
    let here :=
      if d.text ≠ "" ∨ d.contentDescription ≠ "" ∨
          d.viewIdResourceName ≠ "" ∨ d.clickable.getD false = true then
        [("element_" ++ node_id,
          ({
            etype := resolveElementType d.className (d.isPassword.getD false),
            className := d.className, text := d.text,
            contentDescription := d.contentDescription,
            resourceId := d.viewIdResourceName,
            bounds := d2.bounds.getD [],
            clickable := d.clickable.getD false,
            longClickable := d.longClickable.getD false,
            checkable := d.checkable.getD false,
            checked := d.checked.getD false,
            selected := d.selected.getD false,
            enabled := d.enabled.getD true,
            focusable := d.focusable.getD false,
            focused := d.focused.getD false,
            scrollable := d.scrollable.getD false,
            selector := createSelectorForElement (.mk d2 cs) } : ElementInfo))]
      else []
    let r := traverseChildren cs node_id 0 d.className
    (.mk d2 r.1, here ++ r.2)

/-- `for i, child in enumerate(node.get("children", [])):
traverse_node(child, node_id, i, node)`. -/
def traverseChildren (cs : List UINode) (parent_path : String) (i : Nat)
    (parentClass : String) : List UINode × List (String × ElementInfo) :=
  match cs with
  | [] => ([], [])
  | c :: rest =>
    let rc := traverseNode c parent_path i (some parentClass)
    let rr := traverseChildren rest parent_path (i + 1) parentClass
    (rc.1 :: rr.1, rc.2 ++ rr.2)

end

/-- `AppExplorer._identify_all_elements`: the traversal from the root with
no parent path, index 0 and no parent. -/
def identifyAllElements (ui_hierarchy : UINode) :
    UINode × List (String × ElementInfo) :=
  traverseNode ui_hierarchy "" 0 none

mutual

/-- All nodes of a tree in traversal order. -/
def allNodes : UINode → List UINode
  | .mk d cs => .mk d cs :: allNodesList cs

def allNodesList : List UINode → List UINode
  | [] => []
  | c :: cs => allNodes c ++ allNodesList cs

end

/-- The claim-side recording criterion: non-empty text, non-empty content
description, non-empty resource id, or the clickable flag. -/
def recordedMarker (n : UINode) : Bool :=
  (n.data.text != "") || (n.data.contentDescription != "") ||
    (n.data.viewIdResourceName != "") || n.data.clickable.getD false

mutual

/-- Positional pairing of two trees' nodes (used to relate a tree to its
mutated image, which has the same shape). -/
def nodesZip : UINode → UINode → List (UINode × UINode)
  | .mk d cs, .mk e ds => (UINode.mk d cs, UINode.mk e ds) :: nodesZipList cs ds

def nodesZipList : List UINode → List UINode → List (UINode × UINode)
  | [], _ => []
  | _ :: _, [] => []
  | a :: as2, b :: bs => nodesZip a b ++ nodesZipList as2 bs

end

theorem recordedMarker_bridge (d : NodeData) (cs : List UINode) :
    (d.text ≠ "" ∨ d.contentDescription ≠ "" ∨
      d.viewIdResourceName ≠ "" ∨ d.clickable.getD false = true) ↔
    recordedMarker (UINode.mk d cs) = true := by
  simp [recordedMarker, UINode.data]
  tauto

/-- Each node contributes its element record exactly when the recording
criterion holds: the number of recorded elements equals the number of
marked nodes. -/
theorem traverseNode_elems_length :
    ∀ (n : UINode) (p : String) (i : Nat) (pc : Option String),
      (traverseNode n p i pc).2.length =
        ((allNodes n).filter recordedMarker).length := by
  intro n
  induction n using UINode.strong_ind with
  | _ d cs ih =>
    intro p i pc
    have hlist : ∀ (cs' : List UINode), (∀ c ∈ cs', ∀ (p' : String) (i' : Nat)
          (pc' : Option String),
          (traverseNode c p' i' pc').2.length =
            ((allNodes c).filter recordedMarker).length) →
        ∀ (p' : String) (i' : Nat) (pcls : String),
          (traverseChildren cs' p' i' pcls).2.length =
            ((allNodesList cs').filter recordedMarker).length := by
      intro cs'
      induction cs' with
      | nil => intro _ p' i' pcls; simp [traverseChildren, allNodesList]
      | cons c rest ihr =>
        intro hmem p' i' pcls
        simp only [traverseChildren, allNodesList, List.filter_append,
          List.length_append]
        rw [hmem c (List.mem_cons_self c rest) p' i' (some pcls),
          ihr (fun x hx => hmem x (List.mem_cons_of_mem c hx)) p' (i' + 1) pcls]
    by_cases hcond : (d.text ≠ "" ∨ d.contentDescription ≠ "" ∨
        d.viewIdResourceName ≠ "" ∨ d.clickable.getD false = true)
    · have hm : recordedMarker (UINode.mk d cs) = true :=
        (recordedMarker_bridge d cs).mp hcond
      simp [traverseNode, hcond, allNodes, List.filter, hm, hlist cs ih]
    · have hm : recordedMarker (UINode.mk d cs) = false := by
        cases hq : recordedMarker (UINode.mk d cs) with
        | true => exact absurd ((recordedMarker_bridge d cs).mpr hq) hcond
        | false => rfl
      simp [traverseNode, hcond, allNodes, List.filter, hm, hlist cs ih]

/-- C7: element enumeration records one element per node satisfying the
marker criterion (non-empty text, non-empty content description,
non-empty resource id, or clickable), and records nothing at all exactly
when no node of the tree satisfies it. -/
theorem element_recorded_iff_marker :
    (∀ t : UINode, (identifyAllElements t).2.length =
        ((allNodes t).filter recordedMarker).length) ∧
    (∀ t : UINode, ((identifyAllElements t).2 = [] ↔
        ∀ n ∈ allNodes t, recordedMarker n = false)) := by
  have hlen : ∀ t : UINode, (identifyAllElements t).2.length =
      ((allNodes t).filter recordedMarker).length := by
    intro t
    exact traverseNode_elems_length t "" 0 none
  refine ⟨hlen, fun t => ⟨?_, ?_⟩⟩
  · intro h n hn
    have h0 : ((allNodes t).filter recordedMarker).length = 0 := by
      rw [← hlen t, h]
      rfl
    have hnil : (allNodes t).filter recordedMarker = [] :=
      List.eq_nil_of_length_eq_zero h0
    cases hq : recordedMarker n with
    | false => rfl
    | true =>
      exfalso
      have : n ∈ (allNodes t).filter recordedMarker :=
        List.mem_filter.mpr ⟨hn, hq⟩
      rw [hnil] at this
      exact absurd this (List.not_mem_nil n)
  · intro h
    have hnil : (allNodes t).filter recordedMarker = [] := by
      apply List.filter_eq_nil_iff.mpr
      intro a ha
      rw [h a ha]
      simp
    have h0 : (identifyAllElements t).2.length = 0 := by
      rw [hlen t, hnil]
      rfl
    exact List.eq_nil_of_length_eq_zero h0

/-- A 20-node tree (root plus 19 children) of purely decorative nodes:
class names only, no text, no description, no resource id, nothing
clickable. -/
def decorativeTree20 : UINode :=
  .mk { className := "android.widget.FrameLayout" }
    (List.replicate 19 (.mk { className := "android.view.View" } []))

/-- Witness for C7: the 20-node decorative tree yields zero elements. -/
theorem element_recorded_iff_marker_witness :
    (allNodes decorativeTree20).length = 20 ∧
    (identifyAllElements decorativeTree20).2 = [] :=
  ⟨by decide,
   (element_recorded_iff_marker.2 decorativeTree20).mpr (by decide)⟩

theorem mutateData_index (d : NodeData) (i : Nat) (pc : Option String) :
    (mutateData d i pc).index = some i := by
  cases pc <;> simp only [mutateData] <;> split <;> rfl

theorem mutateData_className (d : NodeData) (i : Nat) (pc : Option String) :
    (mutateData d i pc).className = d.className := by
  cases pc <;> simp only [mutateData] <;> split <;> rfl

theorem mutateData_parent_some (d : NodeData) (i : Nat) (pc : String) :
    (mutateData d i (some pc)).parentClassName = some pc := by
  simp only [mutateData]
  split <;> rfl

theorem mutateData_bounds (d : NodeData) (i : Nat) (pc : Option String) :
    (mutateData d i pc).bounds =
      (if d.bounds.getD [] ≠ [] then some (repairBounds (d.bounds.getD []))
       else d.bounds) := by
  cases pc <;> simp only [mutateData] <;> split <;> simp_all

/-- A repaired bounds dict whose explicit `right` did not exceed its
explicit `left` ends with `right = left + 10`. -/
theorem repairBounds_right (bd : List (String × Int)) (r l : Int)
    (hr : lookupKV bd "right" = some r) (hl : lookupKV bd "left" = some l)
    (hrl : r ≤ l) :
    lookupKV (repairBounds bd) "right" = some (l + 10) := by
  have hgr : getKV bd "right" 0 = r := by simp [getKV, hr]
  have hgl : getKV bd "left" 0 = l := by simp [getKV, hl]
  have hvalid : boundsValid bd = false := by
    have : decide (getKV bd "left" 0 < getKV bd "right" 0) = false := by
      rw [hgl, hgr]
      exact decide_eq_false (by omega)
    simp [boundsValid, this]
  have hcond : getKV bd "right" 0 ≤ getKV bd "left" 0 := by
    rw [hgr, hgl]; exact hrl
  simp only [repairBounds, hvalid, Bool.false_eq_true, if_false, if_pos hcond]
  split
  · rw [lookupKV_setKV_ne _ _ _ _ (by decide : ("right" : String) ≠ "bottom"),
      lookupKV_setKV_self, hgl]
  · rw [lookupKV_setKV_self, hgl]

/-- A repaired bounds dict whose explicit `bottom` did not exceed its
explicit `top` ends with `bottom = top + 10`. -/
theorem repairBounds_bottom (bd : List (String × Int)) (bb tt : Int)
    (hb : lookupKV bd "bottom" = some bb) (ht : lookupKV bd "top" = some tt)
    (hbt : bb ≤ tt) :
    lookupKV (repairBounds bd) "bottom" = some (tt + 10) := by
  have hgb : getKV bd "bottom" 0 = bb := by simp [getKV, hb]
  have hgt : getKV bd "top" 0 = tt := by simp [getKV, ht]
  have hvalid : boundsValid bd = false := by
    have : decide (getKV bd "top" 0 < getKV bd "bottom" 0) = false := by
      rw [hgt, hgb]
      exact decide_eq_false (by omega)
    simp [boundsValid, this]
  simp only [repairBounds, hvalid, Bool.false_eq_true, if_false]
  split
  · have hb1b : getKV (setKV bd "right" (getKV bd "left" 0 + 10)) "bottom" 0 = bb := by
      simp [getKV,
        lookupKV_setKV_ne _ _ _ _ (by decide : ("bottom" : String) ≠ "right"), hb]
    have hb1t : getKV (setKV bd "right" (getKV bd "left" 0 + 10)) "top" 0 = tt := by
      simp [getKV,
        lookupKV_setKV_ne _ _ _ _ (by decide : ("top" : String) ≠ "right"), ht]
    rw [if_pos (by rw [hb1b, hb1t]; exact hbt), lookupKV_setKV_self, hb1t]
  · rw [if_pos (by rw [hgb, hgt]; exact hbt), lookupKV_setKV_self, hgt]

theorem traverseNode_output_data (d : NodeData) (cs : List UINode)
    (p : String) (i : Nat) (pc : Option String) :
    (traverseNode (.mk d cs) p i pc).1.data = mutateData d i pc := by
  simp [traverseNode, UINode.data]

theorem traverseNode_output_children (d : NodeData) (cs : List UINode)
    (p : String) (i : Nat) (pc : Option String) :
    (traverseNode (.mk d cs) p i pc).1.children =
      (traverseChildren cs
        (if p ≠ "" then p ++ "/" ++ toString i else toString i)
        0 d.className).1 := by
  simp [traverseNode, UINode.children]

/-- Every tree in the output list of `traverseChildren` is the output of
`traverseNode` on a member of the input list, with that parent class. -/
theorem traverseChildren_mem :
    ∀ (cs : List UINode) (p : String) (i : Nat) (pcls : String)
      (c' : UINode), c' ∈ (traverseChildren cs p i pcls).1 →
      ∃ c ∈ cs, ∃ i' : Nat, c' = (traverseNode c p i' (some pcls)).1 := by
  intro cs
  induction cs with
  | nil => intro p i pcls c' h; simp [traverseChildren] at h
  | cons c rest ih =>
    intro p i pcls c' h
    simp only [traverseChildren] at h
    rcases List.mem_cons.mp h with h1 | h2
    · exact ⟨c, List.mem_cons_self c rest, i, h1⟩
    · rcases ih p (i + 1) pcls c' h2 with ⟨c0, hc0, i', he⟩
      exact ⟨c0, List.mem_cons_of_mem c hc0, i', he⟩

/-- The per-node footprint of the traversal on the tree itself: an `index`
key on every visited node, and on every child a `parent` record holding
its parent's class name. -/
def mutatedNodeProp (m : UINode) : Prop :=
  m.data.index.isSome = true ∧
  ∀ c ∈ m.children, c.data.parentClassName = some m.data.className

theorem traverse_output_nodes_mutated :
    ∀ (n : UINode) (p : String) (i : Nat) (pc : Option String),
      ∀ m ∈ allNodes (traverseNode n p i pc).1, mutatedNodeProp m := by
  intro n
  induction n using UINode.strong_ind with
  | _ d cs ih =>
    intro p i pc m hm
    have hlist : ∀ (cs' : List UINode), (∀ c ∈ cs', ∀ (p' : String) (i' : Nat)
          (pc' : Option String),
          ∀ m' ∈ allNodes (traverseNode c p' i' pc').1, mutatedNodeProp m') →
        ∀ (p' : String) (i' : Nat) (pcls : String),
          ∀ m' ∈ allNodesList (traverseChildren cs' p' i' pcls).1,
            mutatedNodeProp m' := by
      intro cs'
      induction cs' with
      | nil => intro _ p' i' pcls m' hm'; simp [traverseChildren, allNodesList] at hm'
      | cons c rest ihr =>
        intro hmem p' i' pcls m' hm'
        simp only [traverseChildren, allNodesList] at hm'
        rcases List.mem_append.mp hm' with h1 | h2
        · exact hmem c (List.mem_cons_self c rest) p' i' (some pcls) m' h1
        · exact ihr (fun x hx => hmem x (List.mem_cons_of_mem c hx)) p' (i' + 1)
            pcls m' h2
    have hsh : (traverseNode (.mk d cs) p i pc).1 =
        .mk (mutateData d i pc)
          ((traverseChildren cs
            (if p ≠ "" then p ++ "/" ++ toString i else toString i)
            0 d.className).1) := by
      simp [traverseNode]
    rw [hsh] at hm
    simp only [allNodes] at hm
    rcases List.mem_cons.mp hm with hroot | hrest
    · subst hroot
      constructor
      · simp [UINode.data, mutateData_index]
      · intro c hc
        simp only [UINode.children] at hc
        rcases traverseChildren_mem _ _ _ _ c hc with ⟨c0, _, i', he⟩
        cases c0 with
        | mk d0 cs0 =>
          rw [he, traverseNode_output_data]
          simp [UINode.data, mutateData_parent_some, mutateData_className]
    · exact hlist cs ih _ 0 d.className m hrest

/-- Every pair of `nodesZipList` over `traverseChildren` output comes from
one input child and its own traversal. -/
theorem nodesZipList_traverseChildren_mem :
    ∀ (cs : List UINode) (p : String) (i : Nat) (pcls : String)
      (pr : UINode × UINode),
      pr ∈ nodesZipList cs (traverseChildren cs p i pcls).1 →
      ∃ c ∈ cs, ∃ i' : Nat, pr ∈ nodesZip c (traverseNode c p i' (some pcls)).1 := by
  intro cs
  induction cs with
  | nil => intro p i pcls pr h; simp [traverseChildren, nodesZipList] at h
  | cons c rest ih =>
    intro p i pcls pr h
    simp only [traverseChildren] at h
    have h' : pr ∈ nodesZip c (traverseNode c p i (some pcls)).1 ++
        nodesZipList rest (traverseChildren rest p (i + 1) pcls).1 := by
      cases c with
      | mk d0 cs0 =>
        cases hsh : (traverseNode (.mk d0 cs0) p i (some pcls)).1 with
        | mk d2 cs2 =>
          rw [hsh] at h
          simpa [nodesZipList, hsh] using h
    rcases List.mem_append.mp h' with h1 | h2
    · exact ⟨c, List.mem_cons_self c rest, i, h1⟩
    · rcases ih p (i + 1) pcls pr h2 with ⟨c0, hc0, i', he⟩
      exact ⟨c0, List.mem_cons_of_mem c hc0, i', he⟩

/-- Positionally, the output node's bounds are the input node's bounds, in
place, with a present non-empty dict repaired and anything else left
alone. -/
theorem traverse_bounds_repair :
    ∀ (n : UINode) (p : String) (i : Nat) (pc : Option String),
      ∀ pr ∈ nodesZip n (traverseNode n p i pc).1,
        pr.2.data.bounds =
          (if pr.1.data.bounds.getD [] ≠ [] then
            some (repairBounds (pr.1.data.bounds.getD []))
           else pr.1.data.bounds) := by
  intro n
  induction n using UINode.strong_ind with
  | _ d cs ih =>
    intro p i pc pr hpr
    have hsh : (traverseNode (.mk d cs) p i pc).1 =
        .mk (mutateData d i pc)
          ((traverseChildren cs
            (if p ≠ "" then p ++ "/" ++ toString i else toString i)
            0 d.className).1) := by
      simp [traverseNode]
    rw [hsh] at hpr
    simp only [nodesZip] at hpr
    rcases List.mem_cons.mp hpr with hroot | hrest
    · subst hroot
      simp only [UINode.data]
      rw [mutateData_bounds]
    · rcases nodesZipList_traverseChildren_mem _ _ _ _ pr hrest
        with ⟨c0, hc0, i', he⟩
      exact ih c0 hc0 _ i' (some d.className) pr he

/-- C10: element enumeration hands back a mutated tree: every visited node
carries an `index` key, every non-root node carries a `parent` record with
its parent's class name, and every bounds dict with explicit keys
`right ≤ left` (resp. `bottom ≤ top`) is rewritten in place to
`right = left + 10` (resp. `bottom = top + 10`) — whether or not the node
qualifies as an element (the statements quantify over all nodes).  A tree
whose root has no `index` key — every tree as delivered by a device — is
therefore not returned unchanged. -/
theorem identify_all_elements_mutates_tree :
    (∀ t : UINode, ∀ m ∈ allNodes (identifyAllElements t).1,
      m.data.index.isSome = true ∧
      ∀ c ∈ m.children, c.data.parentClassName = some m.data.className) ∧
    (∀ t : UINode, ∀ pr ∈ nodesZip t (identifyAllElements t).1,
      ∀ bd : List (String × Int), pr.1.data.bounds = some bd →
        (∀ r l : Int, lookupKV bd "right" = some r →
          lookupKV bd "left" = some l → r ≤ l →
          lookupKV (pr.2.data.bounds.getD []) "right" = some (l + 10)) ∧
        (∀ bb tt : Int, lookupKV bd "bottom" = some bb →
          lookupKV bd "top" = some tt → bb ≤ tt →
          lookupKV (pr.2.data.bounds.getD []) "bottom" = some (tt + 10))) ∧
    (∀ t : UINode, t.data.index = none → (identifyAllElements t).1 ≠ t) := by
  refine ⟨?_, ?_, ?_⟩
  · intro t m hm
    exact traverse_output_nodes_mutated t "" 0 none m hm
  · intro t pr hpr bd hbd
    have hrep := traverse_bounds_repair t "" 0 none pr hpr
    have hbdne : ∀ (k : String) (v : Int), lookupKV bd k = some v → bd ≠ [] := by
      intro k v hv hnil
      rw [hnil] at hv
      simp [lookupKV] at hv
    constructor
    · intro r l hr hl hrl
      have hne : bd ≠ [] := hbdne _ _ hr
      have : pr.2.data.bounds = some (repairBounds bd) := by
        rw [hrep, hbd]
        simp [hne]
      rw [this]
      simpa using repairBounds_right bd r l hr hl hrl
    · intro bb tt hb ht hbt
      have hne : bd ≠ [] := hbdne _ _ hb
      have : pr.2.data.bounds = some (repairBounds bd) := by
        rw [hrep, hbd]
        simp [hne]
      rw [this]
      simpa using repairBounds_bottom bd bb tt hb ht hbt
  · intro t h heq
    cases t with
    | mk d cs =>
      have hix : (identifyAllElements (.mk d cs)).1.data.index = some 0 := by
        show (traverseNode (.mk d cs) "" 0 none).1.data.index = some 0
        rw [traverseNode_output_data, mutateData_index]
      rw [heq] at hix
      rw [h] at hix
      exact Option.noConfusion hix

/-- A tree whose unrecorded root carries an invalid bounds dict
(`right = 3 ≤ left = 5`) and one decorative child. -/
def mutSceneTree : UINode :=
  .mk { className := "android.widget.LinearLayout",
        bounds := some [("left", 5), ("top", 0), ("right", 3), ("bottom", 7)] }
    [.mk { className := "android.view.View" } []]

/-- Witness for C10: on the concrete tree the root (which is not recorded
as an element) has its bounds repaired in place to `right = 5 + 10`, gets
an `index` key, its child gets the parent record, and the returned tree
differs from the input. -/
theorem identify_all_elements_mutates_tree_witness :
    lookupKV (((identifyAllElements mutSceneTree).1.data.bounds).getD [])
      "right" = some (5 + 10) ∧
    (identifyAllElements mutSceneTree).1.data.index.isSome = true ∧
    (∀ c ∈ (identifyAllElements mutSceneTree).1.children,
      c.data.parentClassName =
        some (identifyAllElements mutSceneTree).1.data.className) ∧
    (identifyAllElements mutSceneTree).1 ≠ mutSceneTree := by
  refine ⟨?_, ?_, ?_, ?_⟩
  · exact (identify_all_elements_mutates_tree.2.1 mutSceneTree
      (mutSceneTree, (identifyAllElements mutSceneTree).1)
      (List.Mem.head _)
      [("left", 5), ("top", 0), ("right", 3), ("bottom", 7)] rfl).1
      3 5 rfl rfl (by decide)
  · exact (identify_all_elements_mutates_tree.1 mutSceneTree
      (identifyAllElements mutSceneTree).1 (List.Mem.head _)).1
  · exact (identify_all_elements_mutates_tree.1 mutSceneTree
      (identifyAllElements mutSceneTree).1 (List.Mem.head _)).2
  · exact identify_all_elements_mutates_tree.2.2 mutSceneTree rfl

/-! ## The exploration driver (`AppExplorer`, crawl state machine)
The callback chain of `AppExplorer` is embedded as a state machine: each
device response is an event supplied by the environment; the synchronous
code between sending one request and returning runs inside a single step.
Each step also receives whether the device is still in the registry at its
send points (`devPresent`).  The knowledge-base writes
(`app_learner.app_knowledge`, `_save_app_knowledge`,
`_learn_app_operations`), the `current_screen` snapshot and the completion
callback are elided: the session fields that the caps read are all
modelled. -/

mutual

/-- Text collection of `AppExplorer._extract_screen_text`: `text` and
`contentDescription` of every node, in traversal order. -/
def screenTexts : UINode → List String
  | .mk d cs =>
    (if d.text ≠ "" then [d.text] else []) ++
      (if d.contentDescription ≠ "" then [d.contentDescription] else []) ++
      screenTextsList cs

def screenTextsList : List UINode → List String
  | [] => []
  | c :: cs => screenTexts c ++ screenTextsList cs

end

/-- `AppExplorer._extract_screen_text` (`none` = falsy hierarchy). -/
def extractScreenText (ui : Option UINode) : String :=
  match ui with
  | none => ""
  | some n => String.intercalate " " (screenTexts n)

/-- `AppExplorer._identify_screen_type`, on the fields it reads from the
parsed device state. -/
def identifyScreenType (current_activity : String) (ui : Option UINode) :
    String :=
  let screen_text := extractScreenText ui
  if strContains screen_text "登录" || strContains screen_text.toLower "login"
  then "login_screen"
  else if strContains screen_text "注册" ||
      strContains screen_text.toLower "register" ||
      strContains screen_text.toLower "sign up" then "register_screen"
  else if strContains screen_text "设置" ||
      strContains screen_text.toLower "setting" then "settings_screen"
  else if strContains screen_text "搜索" ||
      strContains screen_text.toLower "search" then "search_screen"
  else if strContains screen_text "详情" ||
      strContains screen_text.toLower "detail" ||
      strContains screen_text.toLower "info" then "detail_screen"
  else if strContains screen_text "列表" ||
      strContains screen_text.toLower "list" then "list_screen"
  else if strContains screen_text "播放" ||
      strContains screen_text.toLower "play" then "player_screen"
  else if strContains screen_text "消息" ||
      strContains screen_text.toLower "message" ||
      strContains screen_text "聊天" then "message_screen"
  else if strContains screen_text "个人" || strContains screen_text "我的" ||
      strContains screen_text.toLower "profile" ||
      strContains screen_text.toLower "my" then "profile_screen"
  else if strContains screen_text "首页" ||
      strContains screen_text.toLower "home" ||
      strContains screen_text.toLower "main" then "main_screen"
  else if current_activity ≠ "" then
    let activity_name := (lastDotComponent current_activity).toLower
    if strContains activity_name "main" then "main_screen"
    else if strContains activity_name "login" then "login_screen"
    else if strContains activity_name "setting" then "settings_screen"
    else if strContains activity_name "detail" then "detail_screen"
    else if strContains activity_name "list" then "list_screen"
    else if strContains activity_name "search" then "search_screen"
    else if strContains activity_name "player" ||
        strContains activity_name "play" then "player_screen"
    else activity_name ++ "_screen"
  else "unknown_screen"

/-- `AppExplorer._find_clickable_elements`: the explicit flag, the
clickable semantic types, `"item"` in the class name, or a text element
with login/register keywords or `"link"` in its class name. -/
def findClickableElements (elements : List (String × ElementInfo)) :
    List (String × ElementInfo) :=
  elements.filter (fun p =>
    p.2.clickable ||
    ["button", "checkbox", "radio", "switch", "spinner", "tab"].contains
      p.2.etype ||
    strContains p.2.className.toLower "item" ||
    (p.2.etype == "text" &&
      (strContains p.2.text "登录" || strContains p.2.text "注册" ||
        strContains p.2.className.toLower "link")))

/-- `AppExplorer._count_elements` on the possibly-falsy hierarchy. -/
def countElements (node : Option UINode) : Nat :=
  match node with
  | none => 0
  | some n => n.size

def MAX_EXPLORE_DEPTH : Nat := 5

def MAX_EXPLORE_SCREENS : Nat := 15

/-- A queue entry of `session["exploration_queue"]`. -/
structure QueueItem where
  screen_id : String
  element_id : String
  depth : Nat
deriving DecidableEq, Repr

/-- The record stored per discovered screen (the knowledge-relevant
fields; `elements`/`lastSeen` are elided — the cap counts keys). -/
structure ScreenMeta where
  stype : String
  activity : String
deriving DecidableEq, Repr

/-- Which response the crawl is blocked on (the continuation armed by the
last request), or that it has ended. -/
inductive CrawlPhase where
  | launching
  | waitingLoad
  | awaitAnalyze
  | awaitClick
  | awaitBack
  | ended (reason : String)
deriving DecidableEq, Repr

/-- The mutable exploration-session record
(`self.exploration_sessions[session_id]` plus
`self.visited_screens[package_name]`). -/
structure CrawlState where
  package_name : String
  status : String
  discovered_screens : List (String × ScreenMeta)
  discovered_elements : List (String × ElementInfo)
  exploration_queue : List QueueItem
  visited_paths : List (String × String)
  visited_screens : List String
  current_depth : Nat
  waits : Nat
  phase : CrawlPhase
deriving DecidableEq, Repr

/-- Observable actions of a step: each queue pop, and each click request
actually sent to the device. -/
inductive ExploreAction where
  | dequeue (item : QueueItem)
  | clickRequest (item : QueueItem) (selector : List (String × SelVal))
deriving DecidableEq, Repr

/-- `AppExplorer._end_exploration` (knowledge flush and completion
callback elided; the session leaves the rotation). -/
def endExploration (s : CrawlState) (reason : String) : CrawlState :=
  { s with phase := .ended reason }

/-- `AppExplorer._start_screen_exploration`: device lookup, then a
`get_ui_state` request whose continuation is `_analyze_current_screen`. -/
def startScreenExploration (devPresent : Bool) (s : CrawlState) : CrawlState :=
  if ¬devPresent then endExploration s "设备未找到"
  else { s with phase := .awaitAnalyze, status := "exploring" }

/-- `AppExplorer._go_back_and_continue`: device lookup, then a
`press_back` request whose continuation is `_on_back_pressed`. -/
def goBackAndContinue (devPresent : Bool) (s : CrawlState) : CrawlState :=
  if ¬devPresent then endExploration s "设备未找到"
  else { s with phase := .awaitBack }

/-- `AppExplorer._wait_for_app_load`: device lookup, the 5-attempt budget
(proceed assuming loaded once exhausted), else another `get_ui_state`
request and an incremented wait counter. -/
def waitForAppLoad (devPresent : Bool) (s : CrawlState) : CrawlState :=
  if ¬devPresent then endExploration s "设备未找到"
  else if s.waits ≥ 5 then
    startScreenExploration devPresent { s with status := "ready_to_explore" }
  else
    { s with waits := s.waits + 1, phase := .waitingLoad }

/-- Truthiness of a selector value (`selector["resourceId"]` etc.). -/
def selTruthy : SelVal → Bool
  | .s v => v ≠ ""
  | .b v => v
  | .bounds v => !v.isEmpty

/-- The selector improvement of `_click_element` (lines 643–661): prefer a
truthy `resourceId`, then `text`, then `contentDescription`; otherwise use
the original selector with an invalid bounds entry stripped. -/
def improveSelector (sel : List (String × SelVal)) : List (String × SelVal) :=
  if ((lookupKV sel "resourceId").map selTruthy).getD false then
    [("resourceId", (lookupKV sel "resourceId").getD (SelVal.s ""))]
  else if ((lookupKV sel "text").map selTruthy).getD false then
    [("text", (lookupKV sel "text").getD (SelVal.s ""))]
  else if ((lookupKV sel "contentDescription").map selTruthy).getD false then
    [("contentDescription", (lookupKV sel "contentDescription").getD (SelVal.s ""))]
  else
    match lookupKV sel "bounds" with
    | some (SelVal.bounds b) =>
      if getKV b "left" 0 < getKV b "right" 0 ∧
          getKV b "top" 0 < getKV b "bottom" 0 then sel
      else removeKV sel "bounds"
    | _ => sel

/-- Outcome of `AppExplorer._click_element` up to its send. -/
inductive ClickOutcome where
  | skip
  | noDevice
  | sent (selector : List (String × SelVal))
deriving DecidableEq, Repr

/-- `AppExplorer._click_element`: missing element info → skip; device gone
→ end; empty selector → skip; otherwise send the click with the improved
selector (its continuation is `_on_element_clicked`). -/
def clickElementStep (devPresent : Bool) (s : CrawlState)
    (element_id : String) : ClickOutcome :=
  match lookupKV s.discovered_elements element_id with
  | none => ClickOutcome.skip
  | some info =>
    if ¬devPresent then ClickOutcome.noDevice
    else if info.selector = [] then ClickOutcome.skip
    else ClickOutcome.sent (improveSelector info.selector)

/-- `AppExplorer._explore_next_element` together with the skip paths of
`_click_element`: end at the screen cap or on an empty queue; pop the next
item; skip (and recurse) past the depth cap, already-visited paths, and
unclickable entries; otherwise mark the path visited, set the depth, and
send the click. -/
def exploreNextElement (devPresent : Bool) (s : CrawlState) :
    CrawlState × List ExploreAction :=
  if s.discovered_screens.length ≥ MAX_EXPLORE_SCREENS then
    (endExploration s "已完成最大探索量", [])
  else
    match hq : s.exploration_queue with
    | [] => (endExploration s "探索完成", [])
    | item :: rest =>
      let s1 := { s with exploration_queue := rest }
      if item.depth > MAX_EXPLORE_DEPTH then
        let r := exploreNextElement devPresent s1
        (r.1, ExploreAction.dequeue item :: r.2)
      else if s1.visited_paths.contains (item.screen_id, item.element_id) then
        let r := exploreNextElement devPresent s1
        (r.1, ExploreAction.dequeue item :: r.2)
      else
        let s2 := { s1 with
          visited_paths := (item.screen_id, item.element_id) :: s1.visited_paths,
          current_depth := item.depth }
        match clickElementStep devPresent s2 item.element_id with
        | .skip =>
          let r := exploreNextElement devPresent s2
          (r.1, ExploreAction.dequeue item :: r.2)
        | .noDevice => (endExploration s2 "设备未找到", [ExploreAction.dequeue item])
        | .sent sel =>
          ({ s2 with phase := .awaitClick },
           [ExploreAction.dequeue item, ExploreAction.clickRequest item sel])
termination_by s.exploration_queue.length
decreasing_by
  all_goals simp [hq]

/-- The device's `get_ui_state` response as the continuation sees it:
failure status, a state `_parse_device_state` rejects, or the parsed
fields (`current_package`, `current_activity`, the hierarchy — `none` for
a falsy one — and the clock value the signature fallback would read). -/
inductive UIStateOutcome where
  | failure
  | noState
  | state (current_package current_activity : String)
      (tree : Option UINode) (now : Nat)

/-- `AppExplorer._check_app_loaded`: on failure, unreadable state or a
package mismatch keep waiting; with fewer than 5 nodes keep waiting; else
the app is loaded and exploration starts. -/
def checkAppLoaded (devPresent : Bool) (s : CrawlState)
    (out : UIStateOutcome) : CrawlState :=
  match out with
  | .failure => waitForAppLoad devPresent s
  | .noState => waitForAppLoad devPresent s
  | .state pkg _ tree _ =>
    if pkg ≠ s.package_name then waitForAppLoad devPresent s
    else if countElements tree < 5 then waitForAppLoad devPresent s
    else startScreenExploration devPresent { s with status := "ready_to_explore" }

/-- The enqueue loop of `_analyze_current_screen` (lines 379–388): each
clickable element is appended as `(screen id, element id, depth + 1)`
only if its path is unvisited and the queue is below
`MAX_EXPLORE_SCREENS`. -/
def enqueueClickables (screen_id : String)
    (clickables : List (String × ElementInfo)) (st : CrawlState) : CrawlState :=
  clickables.foldl
    (fun st p =>
      if ¬ st.visited_paths.contains (screen_id, p.1) ∧
          st.exploration_queue.length < MAX_EXPLORE_SCREENS then
        { st with exploration_queue := st.exploration_queue ++
            [{ screen_id := screen_id, element_id := p.1,
               depth := st.current_depth + 1 }] }
      else st) st

/-- `AppExplorer._analyze_current_screen`: failure, unreadable state or a
package mismatch route to "go back and continue"; an already-visited
screen id skips straight to the next queued element; otherwise the screen
is recorded (id = `activity ⊕ signature`), its elements are enumerated and
merged, its clickable elements are enqueued breadth-first — each only if
its path is unvisited and the queue is below `MAX_EXPLORE_SCREENS` — and
the crawl advances.  A falsy hierarchy is enumerated as the empty dict
node, exactly as `_identify_all_elements({})`. -/
def analyzeCurrentScreen (devPresent : Bool) (s : CrawlState)
    (out : UIStateOutcome) : CrawlState × List ExploreAction :=
  match out with
  | .failure => (goBackAndContinue devPresent s, [])
  | .noState => (goBackAndContinue devPresent s, [])
  | .state pkg act tree now =>
    if pkg ≠ s.package_name then (goBackAndContinue devPresent s, [])
    else
      let screen_id := act ++ "_" ++ generateScreenSignature tree now
      if s.visited_screens.contains screen_id then
        exploreNextElement devPresent s
      else
        let s1 := { s with visited_screens := screen_id :: s.visited_screens }
        let elements := (identifyAllElements (tree.getD (.mk {} []))).2
        let s2 := { s1 with
          discovered_screens := setKV s1.discovered_screens screen_id
            { stype := identifyScreenType act tree, activity := act },
          discovered_elements :=
            elements.foldl (fun acc p => setKV acc p.1 p.2)
              s1.discovered_elements }
        let s3 := enqueueClickables screen_id
          (findClickableElements elements) s2
        exploreNextElement devPresent s3

/-- One environment event: the response the crawl's armed continuation is
waiting for.  A response that does not match the phase is dropped (its
session check fails). -/
inductive CrawlEvent where
  | launchResult (ok : Bool)
  | loadResult (out : UIStateOutcome)
  | analyzeResult (out : UIStateOutcome)
  | clickResult (ok : Bool)
  | backResult

/-- Dispatch one response to the continuation the crawl armed:
`_on_app_launched`, `_check_app_loaded`, `_analyze_current_screen`,
`_on_element_clicked` (failure advances the queue, success re-analyzes),
`_on_back_pressed`. -/
def crawlStep (devPresent : Bool) (s : CrawlState) (ev : CrawlEvent) :
    CrawlState × List ExploreAction :=
  match s.phase, ev with
  | .launching, .launchResult ok =>
    if ¬ok then (endExploration s "启动应用失败", [])
    else (waitForAppLoad devPresent { s with status := "waiting_for_load" }, [])
  | .waitingLoad, .loadResult out => (checkAppLoaded devPresent s out, [])
  | .awaitAnalyze, .analyzeResult out => analyzeCurrentScreen devPresent s out
  | .awaitClick, .clickResult ok =>
    if ¬ok then exploreNextElement devPresent s
    else (startScreenExploration devPresent s, [])
  | .awaitBack, .backResult => exploreNextElement devPresent s
  | _, _ => (s, [])

/-- `AppExplorer.start_app_exploration` plus `_launch_app`: the fresh
session record, the reset of the package's visited-screen set, and the
`launch_app` request (or immediate end if the device is gone). -/
def startExploration (package_name : String) (devPresent : Bool) : CrawlState :=
  let s : CrawlState :=
    { package_name := package_name, status := "starting",
      discovered_screens := [], discovered_elements := [],
      exploration_queue := [], visited_paths := [], visited_screens := [],
      current_depth := 0, waits := 0, phase := .launching }
  if ¬devPresent then endExploration s "设备未找到"
  else { s with status := "launching" }

/-- Run a whole crawl: each event comes with whether the device is present
at that step's send points. -/
def crawlRun (s : CrawlState) :
    List (Bool × CrawlEvent) → CrawlState × List ExploreAction
  | [] => (s, [])
  | e :: evs =>
    let r := crawlStep e.1 s e.2
    let r' := crawlRun r.1 evs
    (r'.1, r.2 ++ r'.2)

/-- Number of click requests in a log that target a dequeued item deeper
than `MAX_EXPLORE_DEPTH`. -/
def deepClickCount (log : List ExploreAction) : Nat :=
  (log.filter (fun a =>
    match a with
    | .clickRequest item _ => decide (item.depth > MAX_EXPLORE_DEPTH)
    | _ => false)).length

theorem deepClickCount_append (a b : List ExploreAction) :
    deepClickCount (a ++ b) = deepClickCount a + deepClickCount b := by
  simp [deepClickCount, List.filter_append]

/-- Queue advancement: it never touches the discovered-screens map, a
click is only ever sent while the map is strictly below the screen cap, it
leaves the crawl either awaiting that click or ended, and it never sends a
click for a dequeued item beyond the depth cap. -/
theorem exploreNextElement_spec (devPresent : Bool) (s : CrawlState) :
    (exploreNextElement devPresent s).1.discovered_screens =
      s.discovered_screens ∧
    ((exploreNextElement devPresent s).1.phase = CrawlPhase.awaitClick →
      s.discovered_screens.length < MAX_EXPLORE_SCREENS) ∧
    ((exploreNextElement devPresent s).1.phase = CrawlPhase.awaitClick ∨
      ∃ reason, (exploreNextElement devPresent s).1.phase =
        CrawlPhase.ended reason) ∧
    deepClickCount (exploreNextElement devPresent s).2 = 0 := by
  induction s using exploreNextElement.induct with
  | devPresent => exact devPresent
  | case1 s h =>
    have heq : exploreNextElement devPresent s =
        (endExploration s "已完成最大探索量", []) := by
      rw [exploreNextElement.eq_def]
      simp [h]
    rw [heq]
    refine ⟨rfl, ?_, ?_, rfl⟩
    · intro hc; simp [endExploration] at hc
    · exact Or.inr ⟨_, rfl⟩
  | case2 s h hq =>
    have heq : exploreNextElement devPresent s =
        (endExploration s "探索完成", []) := by
      rw [exploreNextElement.eq_def, hq]
      simp [h]
    rw [heq]
    refine ⟨rfl, ?_, ?_, rfl⟩
    · intro hc; simp [endExploration] at hc
    · exact Or.inr ⟨_, rfl⟩
  | case3 s h item rest hq s1 hdepth ih =>
    have heq : exploreNextElement devPresent s =
        ((exploreNextElement devPresent
            { s with exploration_queue := rest }).1,
          ExploreAction.dequeue item ::
            (exploreNextElement devPresent
              { s with exploration_queue := rest }).2) := by
      rw [exploreNextElement.eq_def, hq]
      simp [h, hdepth]
    rw [heq]
    refine ⟨ih.1, fun hc => ih.2.1 hc, ih.2.2.1, ?_⟩
    simpa [deepClickCount, List.filter] using ih.2.2.2
  | case4 s h item rest hq s1 hdepth hvis ih =>
    have hvis' : (item.screen_id, item.element_id) ∈ s.visited_paths := by
      simpa using hvis
    have heq : exploreNextElement devPresent s =
        ((exploreNextElement devPresent
            { s with exploration_queue := rest }).1,
          ExploreAction.dequeue item ::
            (exploreNextElement devPresent
              { s with exploration_queue := rest }).2) := by
      rw [exploreNextElement.eq_def, hq]
      simp [h, hdepth, hvis']
    rw [heq]
    refine ⟨ih.1, fun hc => ih.2.1 hc, ih.2.2.1, ?_⟩
    simpa [deepClickCount, List.filter] using ih.2.2.2
  | case5 s h item rest hq s1 hdepth hvis s2 hclick ih =>
    have hvis' : ¬ (item.screen_id, item.element_id) ∈ s.visited_paths := by
      simpa using hvis
    have heq : exploreNextElement devPresent s =
        ((exploreNextElement devPresent
            { s with
              exploration_queue := rest,
              visited_paths :=
                (item.screen_id, item.element_id) :: s.visited_paths,
              current_depth := item.depth }).1,
          ExploreAction.dequeue item ::
            (exploreNextElement devPresent
              { s with
                exploration_queue := rest,
                visited_paths :=
                  (item.screen_id, item.element_id) :: s.visited_paths,
                current_depth := item.depth }).2) := by
      rw [exploreNextElement.eq_def, hq]
      simp [h, hdepth, hvis', hclick]
    rw [heq]
    refine ⟨ih.1, fun hc => ih.2.1 hc, ih.2.2.1, ?_⟩
    simpa [deepClickCount, List.filter] using ih.2.2.2
  | case6 s h item rest hq s1 hdepth hvis s2 hclick =>
    have hvis' : ¬ (item.screen_id, item.element_id) ∈ s.visited_paths := by
      simpa using hvis
    have heq : exploreNextElement devPresent s =
        (endExploration
          { s with
            exploration_queue := rest,
            visited_paths :=
              (item.screen_id, item.element_id) :: s.visited_paths,
            current_depth := item.depth } "设备未找到",
          [ExploreAction.dequeue item]) := by
      rw [exploreNextElement.eq_def, hq]
      simp [h, hdepth, hvis', hclick]
    rw [heq]
    refine ⟨rfl, ?_, ?_, rfl⟩
    · intro hc; simp [endExploration] at hc
    · exact Or.inr ⟨_, rfl⟩
  | case7 s h item rest hq s1 hdepth hvis s2 sel hclick =>
    have hvis' : ¬ (item.screen_id, item.element_id) ∈ s.visited_paths := by
      simpa using hvis
    have heq : exploreNextElement devPresent s =
        ({ s with
            exploration_queue := rest,
            visited_paths :=
              (item.screen_id, item.element_id) :: s.visited_paths,
            current_depth := item.depth,
            phase := CrawlPhase.awaitClick },
          [ExploreAction.dequeue item,
            ExploreAction.clickRequest item sel]) := by
      rw [exploreNextElement.eq_def, hq]
      simp [h, hdepth, hvis', hclick]
    rw [heq]
    refine ⟨rfl, fun _ => by omega, Or.inl rfl, ?_⟩
    have hd : ¬ item.depth > MAX_EXPLORE_DEPTH := hdepth
    simp [deepClickCount, List.filter, hd]

theorem setKV_length {α : Type} (l : List (String × α)) (k : String) (v : α) :
    (setKV l k v).length ≤ l.length + 1 := by
  induction l with
  | nil => simp [setKV]
  | cons p rest ih =>
    cases hbeq : (p.1 == k) with
    | true => simp [setKV, hbeq]
    | false =>
      simp only [setKV, hbeq, Bool.false_eq_true, if_false, List.length_cons]
      omega

theorem enqueueClickables_discovered (sid : String)
    (l : List (String × ElementInfo)) :
    ∀ st : CrawlState,
      (enqueueClickables sid l st).discovered_screens = st.discovered_screens ∧
      (enqueueClickables sid l st).phase = st.phase := by
  induction l with
  | nil => intro st; exact ⟨rfl, rfl⟩
  | cons p rest ih =>
    intro st
    simp only [enqueueClickables, List.foldl] at *
    split
    · exact ih _
    · exact ih _

/-- The run invariant: the discovered-screens map is within the cap, it is
strictly below the cap whenever a `get_ui_state`-for-analysis or click
response is outstanding (a screen may still be added before the next cap
check), and it is empty before exploration starts. -/
def crawlInv (s : CrawlState) : Prop :=
  s.discovered_screens.length ≤ MAX_EXPLORE_SCREENS ∧
  ((s.phase = CrawlPhase.awaitAnalyze ∨ s.phase = CrawlPhase.awaitClick) →
    s.discovered_screens.length < MAX_EXPLORE_SCREENS) ∧
  ((s.phase = CrawlPhase.launching ∨ s.phase = CrawlPhase.waitingLoad) →
    s.discovered_screens.length = 0)

theorem exploreNextElement_inv (devP : Bool) (s : CrawlState)
    (h : s.discovered_screens.length ≤ MAX_EXPLORE_SCREENS) :
    crawlInv (exploreNextElement devP s).1 ∧
    deepClickCount (exploreNextElement devP s).2 = 0 := by
  have hs := exploreNextElement_spec devP s
  refine ⟨⟨?_, ?_, ?_⟩, hs.2.2.2⟩
  · rw [hs.1]; exact h
  · intro hph
    rcases hph with hph | hph
    · rcases hs.2.2.1 with hc | ⟨r, hr⟩
      · rw [hc] at hph; exact absurd hph (by simp)
      · rw [hr] at hph; exact absurd hph (by simp)
    · rw [hs.1]; exact hs.2.1 hph
  · intro hph
    rcases hs.2.2.1 with hc | ⟨r, hr⟩ <;>
      rcases hph with hph | hph <;> simp_all

theorem endExploration_inv (s : CrawlState) (r : String)
    (h : s.discovered_screens.length ≤ MAX_EXPLORE_SCREENS) :
    crawlInv (endExploration s r) := by
  refine ⟨h, ?_, ?_⟩ <;> intro hph <;> rcases hph with hph | hph <;>
    simp [endExploration] at hph

theorem startScreenExploration_inv (devP : Bool) (s : CrawlState)
    (hlt : s.discovered_screens.length < MAX_EXPLORE_SCREENS) :
    crawlInv (startScreenExploration devP s) := by
  cases devP with
  | false =>
    simp only [startScreenExploration, Bool.not_false, if_pos]
    exact endExploration_inv _ _ (le_of_lt hlt)
  | true =>
    simp only [startScreenExploration, Bool.not_true]
    refine ⟨le_of_lt hlt, fun _ => hlt, ?_⟩
    intro hph
    rcases hph with hph | hph <;> simp at hph

theorem goBackAndContinue_inv (devP : Bool) (s : CrawlState)
    (h : s.discovered_screens.length ≤ MAX_EXPLORE_SCREENS) :
    crawlInv (goBackAndContinue devP s) := by
  cases devP with
  | false =>
    simp only [goBackAndContinue, Bool.not_false, if_pos]
    exact endExploration_inv _ _ h
  | true =>
    simp only [goBackAndContinue, Bool.not_true]
    refine ⟨h, ?_, ?_⟩ <;> intro hph <;> rcases hph with hph | hph <;>
      simp at hph

theorem waitForAppLoad_inv (devP : Bool) (s : CrawlState)
    (h0 : s.discovered_screens.length = 0) :
    crawlInv (waitForAppLoad devP s) := by
  unfold waitForAppLoad
  split
  · exact endExploration_inv _ _ (by omega)
  · split
    · refine startScreenExploration_inv _ _ ?_
      have h1 : ({ s with status := "ready_to_explore" } :
          CrawlState).discovered_screens.length = 0 := by simpa using h0
      rw [h1]
      decide
    · have h1 : ({ s with
          waits := s.waits + 1,
          phase := CrawlPhase.waitingLoad } :
          CrawlState).discovered_screens.length = 0 := by simpa using h0
      refine ⟨by rw [h1]; decide, ?_, fun _ => h1⟩
      intro hph; rcases hph with hph | hph <;> simp at hph

theorem checkAppLoaded_inv (devP : Bool) (s : CrawlState) (out : UIStateOutcome)
    (h0 : s.discovered_screens.length = 0) :
    crawlInv (checkAppLoaded devP s out) := by
  cases out with
  | failure => exact waitForAppLoad_inv devP s h0
  | noState => exact waitForAppLoad_inv devP s h0
  | state pkg act tree now =>
    simp only [checkAppLoaded]
    split
    · exact waitForAppLoad_inv devP s h0
    · split
      · exact waitForAppLoad_inv devP s h0
      · refine startScreenExploration_inv _ _ ?_
        have h1 : ({ s with status := "ready_to_explore" } :
            CrawlState).discovered_screens.length = 0 := by simpa using h0
        rw [h1]
        decide

theorem analyzeCurrentScreen_inv (devP : Bool) (s : CrawlState)
    (out : UIStateOutcome)
    (hlt : s.discovered_screens.length < MAX_EXPLORE_SCREENS) :
    crawlInv (analyzeCurrentScreen devP s out).1 ∧
    deepClickCount (analyzeCurrentScreen devP s out).2 = 0 := by
  cases out with
  | failure => exact ⟨goBackAndContinue_inv devP s (le_of_lt hlt), rfl⟩
  | noState => exact ⟨goBackAndContinue_inv devP s (le_of_lt hlt), rfl⟩
  | state pkg act tree now =>
    by_cases hpkg : pkg ≠ s.package_name
    · simp only [analyzeCurrentScreen, if_pos hpkg]
      exact ⟨goBackAndContinue_inv devP s (le_of_lt hlt), rfl⟩
    · by_cases hv : s.visited_screens.contains
        (act ++ "_" ++ generateScreenSignature tree now) = true
      · simp only [analyzeCurrentScreen, if_neg hpkg, hv, if_true]
        exact exploreNextElement_inv devP s (le_of_lt hlt)
      · have hv' : s.visited_screens.contains
            (act ++ "_" ++ generateScreenSignature tree now) = false := by
          cases hx : s.visited_screens.contains
              (act ++ "_" ++ generateScreenSignature tree now) with
          | true => exact absurd hx hv
          | false => rfl
        simp only [analyzeCurrentScreen, if_neg hpkg, hv', Bool.false_eq_true,
          if_false]
        refine exploreNextElement_inv devP _ ?_
        rw [(enqueueClickables_discovered _ _ _).1]
        have hset := setKV_length s.discovered_screens
          (act ++ "_" ++ generateScreenSignature tree now)
          ({ stype := identifyScreenType act tree, activity := act } :
            ScreenMeta)
        simp only []
        simp
        omega

theorem crawlStep_inv (devP : Bool) (s : CrawlState) (ev : CrawlEvent)
    (h : crawlInv s) :
    crawlInv (crawlStep devP s ev).1 ∧
    deepClickCount (crawlStep devP s ev).2 = 0 := by
  obtain ⟨h1, h2, h3⟩ := h
  cases hph : s.phase with
  | launching =>
    cases ev with
    | launchResult ok =>
      cases ok with
      | false =>
        simp only [crawlStep, hph, Bool.not_false, if_true]
        exact ⟨endExploration_inv s _ h1, rfl⟩
      | true =>
        simp only [crawlStep, hph, Bool.not_true, Bool.false_eq_true, if_false]
        refine ⟨waitForAppLoad_inv devP _ ?_, rfl⟩
        simpa using h3 (Or.inl hph)
    | loadResult out =>
      simp only [crawlStep, hph]; exact ⟨⟨h1, h2, h3⟩, rfl⟩
    | analyzeResult out =>
      simp only [crawlStep, hph]; exact ⟨⟨h1, h2, h3⟩, rfl⟩
    | clickResult ok =>
      simp only [crawlStep, hph]; exact ⟨⟨h1, h2, h3⟩, rfl⟩
    | backResult =>
      simp only [crawlStep, hph]; exact ⟨⟨h1, h2, h3⟩, rfl⟩
  | waitingLoad =>
    cases ev with
    | loadResult out =>
      simp only [crawlStep, hph]
      exact ⟨checkAppLoaded_inv devP s out (h3 (Or.inr hph)), rfl⟩
    | launchResult ok =>
      simp only [crawlStep, hph]; exact ⟨⟨h1, h2, h3⟩, rfl⟩
    | analyzeResult out =>
      simp only [crawlStep, hph]; exact ⟨⟨h1, h2, h3⟩, rfl⟩
    | clickResult ok =>
      simp only [crawlStep, hph]; exact ⟨⟨h1, h2, h3⟩, rfl⟩
    | backResult =>
      simp only [crawlStep, hph]; exact ⟨⟨h1, h2, h3⟩, rfl⟩
  | awaitAnalyze =>
    cases ev with
    | analyzeResult out =>
      simp only [crawlStep, hph]
      exact analyzeCurrentScreen_inv devP s out (h2 (Or.inl hph))
    | launchResult ok =>
      simp only [crawlStep, hph]; exact ⟨⟨h1, h2, h3⟩, rfl⟩
    | loadResult out =>
      simp only [crawlStep, hph]; exact ⟨⟨h1, h2, h3⟩, rfl⟩
    | clickResult ok =>
      simp only [crawlStep, hph]; exact ⟨⟨h1, h2, h3⟩, rfl⟩
    | backResult =>
      simp only [crawlStep, hph]; exact ⟨⟨h1, h2, h3⟩, rfl⟩
  | awaitClick =>
    cases ev with
    | clickResult ok =>
      cases ok with
      | false =>
        simp only [crawlStep, hph, Bool.not_false, if_true]
        exact exploreNextElement_inv devP s h1
      | true =>
        simp only [crawlStep, hph, Bool.not_true, Bool.false_eq_true, if_false]
        exact ⟨startScreenExploration_inv devP s (h2 (Or.inr hph)), rfl⟩
    | launchResult ok =>
      simp only [crawlStep, hph]; exact ⟨⟨h1, h2, h3⟩, rfl⟩
    | loadResult out =>
      simp only [crawlStep, hph]; exact ⟨⟨h1, h2, h3⟩, rfl⟩
    | analyzeResult out =>
      simp only [crawlStep, hph]; exact ⟨⟨h1, h2, h3⟩, rfl⟩
    | backResult =>
      simp only [crawlStep, hph]; exact ⟨⟨h1, h2, h3⟩, rfl⟩
  | awaitBack =>
    cases ev with
    | backResult =>
      simp only [crawlStep, hph]
      exact exploreNextElement_inv devP s h1
    | launchResult ok =>
      simp only [crawlStep, hph]; exact ⟨⟨h1, h2, h3⟩, rfl⟩
    | loadResult out =>
      simp only [crawlStep, hph]; exact ⟨⟨h1, h2, h3⟩, rfl⟩
    | analyzeResult out =>
      simp only [crawlStep, hph]; exact ⟨⟨h1, h2, h3⟩, rfl⟩
    | clickResult ok =>
      simp only [crawlStep, hph]; exact ⟨⟨h1, h2, h3⟩, rfl⟩
  | ended r =>
    cases ev with
    | launchResult ok =>
      simp only [crawlStep, hph]; exact ⟨⟨h1, h2, h3⟩, rfl⟩
    | loadResult out =>
      simp only [crawlStep, hph]; exact ⟨⟨h1, h2, h3⟩, rfl⟩
    | analyzeResult out =>
      simp only [crawlStep, hph]; exact ⟨⟨h1, h2, h3⟩, rfl⟩
    | clickResult ok =>
      simp only [crawlStep, hph]; exact ⟨⟨h1, h2, h3⟩, rfl⟩
    | backResult =>
      simp only [crawlStep, hph]; exact ⟨⟨h1, h2, h3⟩, rfl⟩

theorem startExploration_inv (pkg : String) (dp : Bool) :
    crawlInv (startExploration pkg dp) := by
  cases dp with
  | false =>
    refine ⟨?_, ?_, ?_⟩
    · show (0 : Nat) ≤ MAX_EXPLORE_SCREENS
      decide
    · intro hph; rcases hph with hph | hph <;>
        simp [startExploration, endExploration] at hph
    · intro _; rfl
  | true =>
    refine ⟨?_, ?_, ?_⟩
    · show (0 : Nat) ≤ MAX_EXPLORE_SCREENS
      decide
    · intro hph; rcases hph with hph | hph <;>
        simp [startExploration] at hph
    · intro _; rfl

theorem crawlRun_inv :
    ∀ (evs : List (Bool × CrawlEvent)) (s : CrawlState), crawlInv s →
      crawlInv (crawlRun s evs).1 ∧ deepClickCount (crawlRun s evs).2 = 0 := by
  intro evs
  induction evs with
  | nil => intro s h; exact ⟨h, rfl⟩
  | cons e rest ih =>
    intro s h
    have hstep := crawlStep_inv e.1 s e.2 h
    have hrest := ih _ hstep.1
    refine ⟨hrest.1, ?_⟩
    simp only [crawlRun, deepClickCount_append]
    rw [hstep.2, hrest.2]

/-- C3: throughout every exploration session — that is, in the state
reached by any sequence of device responses from a fresh crawl, which
covers every intermediate state since runs are closed under prefixes and
the discovered-screens map only ever grows — the discovered-screens map
never exceeds `MAX_EXPLORE_SCREENS` (the cap check ends the crawl before
the next click is sent), and no click request is ever sent for a dequeued
item whose depth exceeds `MAX_EXPLORE_DEPTH` (such items are dequeued and
skipped). -/
theorem exploration_caps_respected (pkg : String) (dp0 : Bool)
    (evs : List (Bool × CrawlEvent)) :
    (crawlRun (startExploration pkg dp0) evs).1.discovered_screens.length ≤
      MAX_EXPLORE_SCREENS ∧
    deepClickCount (crawlRun (startExploration pkg dp0) evs).2 = 0 :=
  have h := crawlRun_inv evs (startExploration pkg dp0)
    (startExploration_inv pkg dp0)
  ⟨h.1.1, h.2⟩
